import Mathlib

/-!
# turtlebot_follower: the follower nodelet

A shallow embedding of `turtlebot_follower/src/follower.cpp`.

Conventions of the embedding.

* `float`/`double` values are exact rationals.  A value that the machine
  arithmetic makes non-finite (a division by zero, the sine of an infinite
  angle) is `none` in an `Option ℚ`.
* `sin` is a parameter of every definition that calls it.
* Reading an array outside its bounds is undefined behaviour in the source; here
  it is the result `Except.error` with the kind of fault.
* The member variables of the nodelet are the fields of `TurtlebotFollower`;
  every callback takes the object and returns the updated object together with
  what it published.
-/

namespace Follower

/-! ## Messages -/

/-- The two components of `geometry_msgs::Twist` that the nodelet ever writes.
A freshly constructed `Twist` has every component zero; the other four
components stay zero in every message published. -/
structure Twist where
  linear_x : ℚ
  angular_z : ℚ
  deriving DecidableEq, Repr

/-- Position of the sphere marker of `publishMarker`. -/
structure CentroidMarker where
  x : Option ℚ
  y : Option ℚ
  z : ℚ
  deriving DecidableEq, Repr

/-- Position and scale of the cube marker of `publishBbox`. -/
structure BboxMarker where
  x : ℚ
  y : ℚ
  z : ℚ
  scale_x : ℚ
  scale_y : ℚ
  scale_z : ℚ
  deriving DecidableEq, Repr

/-- Messages published by one callback, per publisher, in order. -/
structure Published where
  cmd_vel : List Twist
  marker : List CentroidMarker
  bbox : List BboxMarker
  deriving DecidableEq, Repr

/-- A `sensor_msgs::Image` carrying 32-bit float depths.  `width`, `height` and
`step` (bytes per row) are the `uint32` header fields.  `data` is the byte
buffer seen through the `reinterpret_cast<const float*>`: one entry per float
slot, `some d` for a finite depth of `d` metres and `none` for a non-finite one
(the only readings `DepthTraits<float>::valid` refuses). -/
structure DepthFrame where
  width : ℕ
  height : ℕ
  step : ℕ
  data : List (Option ℚ)
  deriving DecidableEq, Repr

/-- The fields of `turtlebot_follower::FollowerConfig` read by `reconfigure`. -/
structure FollowerConfig where
  min_y : ℚ
  max_y : ℚ
  min_x : ℚ
  max_x : ℚ
  max_z : ℚ
  goal_z : ℚ
  z_scale : ℚ
  x_scale : ℚ
  deriving DecidableEq, Repr

/-- Private parameters looked up by `onInit`; `none` when the parameter is not
set, in which case `getParam` leaves the member untouched. -/
structure Params where
  min_y : Option ℚ
  max_y : Option ℚ
  min_x : Option ℚ
  max_x : Option ℚ
  max_z : Option ℚ
  goal_z : Option ℚ
  z_scale : Option ℚ
  x_scale : Option ℚ
  enabled : Option Bool
  deriving DecidableEq, Repr

/-! ## The nodelet object -/

/-- Member variables of `class TurtlebotFollower`. -/
structure TurtlebotFollower where
  min_y_ : ℚ
  max_y_ : ℚ
  min_x_ : ℚ
  max_x_ : ℚ
  max_z_ : ℚ
  goal_z_ : ℚ
  z_scale_ : ℚ
  x_scale_ : ℚ
  enabled_ : Bool
  count : ℤ
  rotate_ : Bool
  dir_ : ℤ
  seesBlobs_ : Bool
  seesObstacle_ : Bool
  deriving DecidableEq, Repr

/-- The member `int TURN_THRES = 90;`, never assigned afterwards. -/
def TURN_THRES : ℤ := 90

/-- The constructor: its initialiser list sets the box, the goal and the two
scales.  Every other member is left indeterminate; `junk` supplies those
values. -/
def TurtlebotFollower.construct (junk : TurtlebotFollower) : TurtlebotFollower :=
  { junk with
    min_y_ := 1 / 10, max_y_ := 1 / 2,
    min_x_ := -(1 / 5), max_x_ := 1 / 5,
    max_z_ := 4 / 5, goal_z_ := 6 / 5,
    z_scale_ := 1, x_scale_ := 5 }

/-- The body of `reconfigure`: every geometry and scale field is overwritten
with the value of the incoming configuration; `level` is ignored. -/
def reconfigure (s : TurtlebotFollower) (config : FollowerConfig) (_level : ℕ) :
    TurtlebotFollower :=
  { s with
    min_y_ := config.min_y, max_y_ := config.max_y,
    min_x_ := config.min_x, max_x_ := config.max_x,
    max_z_ := config.max_z, goal_z_ := config.goal_z,
    z_scale_ := config.z_scale, x_scale_ := config.x_scale }

/-- The body of `onInit`.  Each `getParam` overwrites its member only when the
parameter exists.  `setCallback` of the reconfigure server may invoke the
callback at once with the server's configuration: `initial` is that
configuration when it does.  The last four assignments reset the controller. -/
def onInit (s : TurtlebotFollower) (p : Params) (initial : Option FollowerConfig) :
    TurtlebotFollower :=
  let s1 : TurtlebotFollower :=
    { s with
      min_y_ := p.min_y.getD s.min_y_, max_y_ := p.max_y.getD s.max_y_,
      min_x_ := p.min_x.getD s.min_x_, max_x_ := p.max_x.getD s.max_x_,
      max_z_ := p.max_z.getD s.max_z_, goal_z_ := p.goal_z.getD s.goal_z_,
      z_scale_ := p.z_scale.getD s.z_scale_, x_scale_ := p.x_scale.getD s.x_scale_,
      enabled_ := p.enabled.getD s.enabled_ }
  let s2 : TurtlebotFollower :=
    match initial with
    | none => s1
    | some c => reconfigure s1 c 0xFFFFFFFF
  { s2 with rotate_ := false, count := 0, dir_ := 1, seesObstacle_ := false }

/-- The body of `blobsCallBack`: the flag is true exactly when the report
carries at least one blob. -/
def blobsCallBack (s : TurtlebotFollower) (blob_count : ℕ) : TurtlebotFollower :=
  if blob_count > 0 then { s with seesBlobs_ := true } else { s with seesBlobs_ := false }

/-- The body of `publishMarker`: the marker position is the point handed in. -/
def publishMarker (x y : Option ℚ) (z : ℚ) : CentroidMarker :=
  { x := x, y := y, z := z }

/-- The body of `publishBbox`. -/
def publishBbox (s : TurtlebotFollower) : BboxMarker :=
  let x := (s.min_x_ + s.max_x_) / 2
  let y := (s.min_y_ + s.max_y_) / 2
  let z := (0 + s.max_z_) / 2
  let scale_x := (s.max_x_ - x) * 2
  let scale_y := (s.max_y_ - y) * 2
  let scale_z := (s.max_z_ - z) * 2
  { x := x, y := -y, z := z, scale_x := scale_x, scale_y := scale_y, scale_z := scale_z }

/-! ## `imagecb`: the lookup tables -/

/-- The cast `(int)` of a `uint32` value. -/
def toInt32 (w : ℕ) : ℤ :=
  if w < 2 ^ 31 then (w : ℤ) else (w : ℤ) - 2 ^ 32

/-- The local `uint32_t image_width = 0.5*(depth_msg->width);`. -/
def image_width (f : DepthFrame) : ℕ := f.width / 2

/-- Quotient of two machine floats: not finite when the divisor is zero. -/
def fdiv (a b : ℚ) : Option ℚ :=
  if b = 0 then none else some (a / b)

/-- The local `x_radians_per_pixel = 60.0/57.0/image_width`. -/
def x_radians_per_pixel (f : DepthFrame) : Option ℚ :=
  fdiv (60 / 57) (image_width f)

/-- The local `y_radians_per_pixel = 45.0/57.0/image_width`. -/
def y_radians_per_pixel (f : DepthFrame) : Option ℚ :=
  fdiv (45 / 57) (image_width f)

/-- The array `sin_pixel_x`: `image_width` entries,
`sin((x - image_width/2.0) * x_radians_per_pixel)` at index `x`.  An entry is
`none` when the step is not finite; that needs `image_width = 0`, and then the
array is empty. -/
def sin_pixel_x (sin : ℚ → ℚ) (f : DepthFrame) : List (Option ℚ) :=
  (List.range (image_width f)).map fun (x : ℕ) =>
    (x_radians_per_pixel f).map fun r => sin (((x : ℚ) - (image_width f : ℚ) / 2) * r)

/-- The array `sin_pixel_y`: `height` entries,
`sin((image_height/2.0 - y) * y_radians_per_pixel)` at index `y`.  When
`image_width = 0` the step is infinite and every entry is not-a-number. -/
def sin_pixel_y (sin : ℚ → ℚ) (f : DepthFrame) : List (Option ℚ) :=
  (List.range f.height).map fun (y : ℕ) =>
    (y_radians_per_pixel f).map fun r => sin (((f.height : ℚ) / 2 - (y : ℚ)) * r)

/-! ## `imagecb`: the scan of the depth buffer -/

/-- Undefined behaviour the scan can run into. -/
inductive Fault where
  /-- A read of `sin_pixel_x` or `sin_pixel_y` past the end of the array. -/
  | tableOverrun
  /-- A read of `depth_row[u]` past the end of the image buffer. -/
  | bufferOverrun
  /-- Overflow of the `int` loop counter that fills `sin_pixel_y`. -/
  | intOverflow
  deriving DecidableEq, Repr

/-- The locals `x`, `y`, `z`, `n` of `imagecb` during the scan. -/
structure Acc where
  x : ℚ
  y : ℚ
  z : ℚ
  n : ℕ
  deriving DecidableEq, Repr

/-- Values of the locals before the scan: `x = 0.0`, `y = 0.0`, `z = 1e6`, `n = 0`. -/
def Acc.init : Acc := { x := 0, y := 0, z := 1000000, n := 0 }

/-- The pixels `(v, u)` in the order the two nested `for` loops visit them: rows
`v` below `(int)height`, and in each row the columns `u` below `(int)width`. -/
def pixels (f : DepthFrame) : List (ℕ × ℕ) :=
  ((List.range (toInt32 f.height).toNat).map fun v =>
    (List.range (toInt32 f.width).toNat).map fun u => (v, u)).flatten

/-- The test of the inner `if` on finite `y_val` and `x_val`: all four
comparisons are strict. -/
def inBox (s : TurtlebotFollower) (y_val x_val : ℚ) : Bool :=
  decide (y_val > s.min_y_ ∧ y_val < s.max_y_ ∧ x_val > s.min_x_ ∧ x_val < s.max_x_)

/-- One pass through the body of the inner loop at pixel `(v, u)`.  `row_step`
is `step / sizeof(float)`, and `depth_row[u]` is the float slot
`v * row_step + u` of the buffer.  Both table entries are read before the test;
a product with a not-a-number entry fails every comparison of the test.  The
two products and the four comparisons are exact: the rounding of each product
to `float` before it is compared with the `double` bounds is not modelled. -/
def scanPixel (s : TurtlebotFollower) (sinX sinY : List (Option ℚ)) (f : DepthFrame)
    (a : Acc) (p : ℕ × ℕ) : Except Fault Acc :=
  let v := p.1
  let u := p.2
  let row_step := f.step / 4
  match f.data[v * row_step + u]? with
  | none => .error .bufferOverrun
  | some none => .ok a
  | some (some depth) =>
    if depth > s.max_z_ then .ok a
    else
      match sinY[v]? with
      | none => .error .tableOverrun
      | some sy =>
        match sinX[u]? with
        | none => .error .tableOverrun
        | some sx =>
          match sy.map fun t => t * depth, sx.map fun t => t * depth with
          | some y_val, some x_val =>
            if inBox s y_val x_val then
              .ok { x := a.x + x_val, y := a.y + y_val,
                    z := min a.z depth, n := (a.n + 1) % 2 ^ 32 }
            else .ok a
          | _, _ => .ok a

/-- The nested loops from a given list of pixels on. -/
def scanLoop (s : TurtlebotFollower) (sinX sinY : List (Option ℚ)) (f : DepthFrame) :
    List (ℕ × ℕ) → Acc → Except Fault Acc
  | [], a => .ok a
  | p :: ps, a =>
    match scanPixel s sinX sinY f a p with
    | .error e => .error e
    | .ok a1 => scanLoop s sinX sinY f ps a1

/-- Lines 198 to 241 of `imagecb`: the tables are filled, then the buffer is
scanned.  Filling `sin_pixel_y` counts an `int` up to `height`, which overflows
when `height` does not fit an `int`. -/
def imagecb_scan (sin : ℚ → ℚ) (s : TurtlebotFollower) (f : DepthFrame) :
    Except Fault Acc :=
  if 2 ^ 31 ≤ f.height then .error .intOverflow
  else scanLoop s (sin_pixel_x sin f) (sin_pixel_y sin f) f (pixels f) Acc.init

/-! ## `imagecb`: the controller -/

/-- The locals `x`, `y`, `z`, `n` of `imagecb` when it returns. -/
structure Centroid where
  x : Option ℚ
  y : Option ℚ
  z : ℚ
  count : ℕ
  deriving DecidableEq, Repr

/-- What one run of `imagecb` leaves behind. -/
structure FrameResult where
  state : TurtlebotFollower
  centroid : Centroid
  pub : Published
  deriving DecidableEq, Repr

/-- Lines 243 to 304 of `imagecb`, from the values of the locals after the scan. -/
def imagecb_control (s : TurtlebotFollower) (a : Acc) : FrameResult :=
  if a.n > 3000 ∨ s.seesObstacle_ = true then
    let x := fdiv a.x a.n
    let y := fdiv a.y a.n
    let c : Centroid := { x := x, y := y, z := a.z, count := a.n }
    let m := publishMarker x y a.z
    if s.enabled_ = true then
      if s.seesBlobs_ = false then
        if s.count < TURN_THRES then
          { state := { s with seesObstacle_ := true, count := s.count + 1 },
            centroid := c,
            pub := { cmd_vel := [{ linear_x := 0, angular_z := 3 / 5 }],
                     marker := [m], bbox := [publishBbox s] } }
        else if s.count < 2 * TURN_THRES then
          { state := { s with seesObstacle_ := true, count := s.count + 1 },
            centroid := c,
            pub := { cmd_vel := [{ linear_x := 3 / 10, angular_z := 0 }],
                     marker := [m], bbox := [publishBbox s] } }
        else
          { state := { s with seesObstacle_ := false, count := 0 },
            centroid := c,
            pub := { cmd_vel := [{ linear_x := 0, angular_z := 0 }],
                     marker := [m], bbox := [publishBbox s] } }
      else
        { state := s, centroid := c,
          pub := { cmd_vel := [{ linear_x := 0, angular_z := 0 }],
                   marker := [m], bbox := [publishBbox s] } }
    else
      { state := s, centroid := c,
        pub := { cmd_vel := [], marker := [m], bbox := [publishBbox s] } }
  else
    let c : Centroid := { x := some a.x, y := some a.y, z := a.z, count := a.n }
    if s.seesBlobs_ = true then
      { state := { s with count := 0 }, centroid := c,
        pub := { cmd_vel := [{ linear_x := 1 / 2, angular_z := 0 }],
                 marker := [], bbox := [publishBbox s] } }
    else
      { state := s, centroid := c,
        pub := { cmd_vel := [{ linear_x := 0, angular_z := 1 / 2 }],
                 marker := [], bbox := [publishBbox s] } }

/-- The callback `imagecb`. -/
def imagecb (sin : ℚ → ℚ) (s : TurtlebotFollower) (f : DepthFrame) :
    Except Fault FrameResult :=
  match imagecb_scan sin s f with
  | .error e => .error e
  | .ok a => .ok (imagecb_control s a)

/-! ## `changeModeSrvCb` -/

/-- The constants of `turtlebot_msgs/SetFollowState` that the callback names:
`request.STOPPED`, `request.FOLLOW` and `response.OK`.  The service definition
is not part of this package, so their values are parameters. -/
structure SetFollowState where
  STOPPED : ℕ
  FOLLOW : ℕ
  OK : ℕ
  deriving DecidableEq, Repr

/-- What `changeModeSrvCb` leaves behind: the object, the commands published,
`response.result`, and the value returned. -/
structure SrvResult where
  state : TurtlebotFollower
  cmd_vel : List Twist
  result : ℕ
  ret : Bool
  deriving DecidableEq, Repr

/-- The body of `changeModeSrvCb`; `request_state` is `request.state`. -/
def changeModeSrvCb (K : SetFollowState) (s : TurtlebotFollower) (request_state : ℕ) :
    SrvResult :=
  if s.enabled_ = true ∧ request_state = K.STOPPED then
    { state := { s with enabled_ := false },
      cmd_vel := [{ linear_x := 0, angular_z := 0 }],
      result := K.OK, ret := true }
  else if s.enabled_ = false ∧ request_state = K.FOLLOW then
    { state := { s with enabled_ := true }, cmd_vel := [], result := K.OK, ret := true }
  else
    { state := s, cmd_vel := [], result := K.OK, ret := true }

/-! ## The transition table of the specification -/

/-- The transition table of the specification (section 4.4) for `enabled = true`,
written from its words: from `currently_avoiding`, `turn_counter`, the
accepted-point count and the target-visibility flag to the next
`currently_avoiding`, the next `turn_counter` and the commands emitted. -/
def Spec.transition (currently_avoiding : Bool) (turn_counter : ℤ) (n : ℕ) (visible : Bool) :
    Bool × ℤ × List Twist :=
  let obstacle_or_near : Bool := decide (n > 3000) || currently_avoiding
  if obstacle_or_near = true ∧ visible = false then
    if turn_counter < 90 then
      (true, turn_counter + 1, [{ linear_x := 0, angular_z := 3 / 5 }])
    else if turn_counter < 2 * 90 then
      (true, turn_counter + 1, [{ linear_x := 3 / 10, angular_z := 0 }])
    else
      (false, 0, [{ linear_x := 0, angular_z := 0 }])
  else if obstacle_or_near = true ∧ visible = true then
    (currently_avoiding, turn_counter, [{ linear_x := 0, angular_z := 0 }])
  else if visible = true then
    (currently_avoiding, 0, [{ linear_x := 1 / 2, angular_z := 0 }])
  else
    (currently_avoiding, turn_counter, [{ linear_x := 0, angular_z := 1 / 2 }])

/-! ## The extraction of the specification -/

/-- Section 4.2 of the specification, steps 1 to 3, at one pixel `p = (v, u)`:
the sample is read and is skipped when it is invalid or exceeds `max_z`;
`y_val = sinY[v] * depth` and `x_val = sinX[u] * depth`; the point is accepted
only if `min_y < y_val < max_y` and `min_x < x_val < max_x`.  The value is
`(x_val, y_val, depth)` for an accepted point and `none` otherwise. -/
def Spec.acceptedAt (s : TurtlebotFollower) (sinX sinY : List (Option ℚ)) (f : DepthFrame)
    (p : ℕ × ℕ) : Option (ℚ × ℚ × ℚ) :=
  match f.data[p.1 * (f.step / 4) + p.2]?, sinY[p.1]?, sinX[p.2]? with
  | some (some depth), some (some sy), some (some sx) =>
    if depth ≤ s.max_z_ ∧ s.min_y_ < sy * depth ∧ sy * depth < s.max_y_ ∧
        s.min_x_ < sx * depth ∧ sx * depth < s.max_x_ then
      some (sx * depth, sy * depth, depth)
    else none
  | _, _, _ => none

/-- The accepted points of a frame, `(x_val, y_val, depth)` each, over the
pixels the scan visits and with the tables `imagecb` builds. -/
def Spec.accepted (sin : ℚ → ℚ) (s : TurtlebotFollower) (f : DepthFrame) : List (ℚ × ℚ × ℚ) :=
  (pixels f).filterMap (Spec.acceptedAt s (sin_pixel_x sin f) (sin_pixel_y sin f) f)

/-- The reads at one pixel stay inside their arrays: the pixel lies inside the
image buffer, and a finite depth not beyond `max_z_` sits in a column below
`image_width`, the length of `sin_pixel_x`. -/
def pixelDefined (s : TurtlebotFollower) (f : DepthFrame) (p : ℕ × ℕ) : Bool :=
  match f.data[p.1 * (f.step / 4) + p.2]? with
  | none => false
  | some none => true
  | some (some d) => decide (d > s.max_z_) || decide (p.2 < image_width f)

/-- The scan of a frame stays inside its arrays: `height` fits an `int` and the
reads at every visited pixel are in bounds. -/
def ScanDefined (s : TurtlebotFollower) (f : DepthFrame) : Prop :=
  f.height < 2 ^ 31 ∧ ∀ p ∈ pixels f, pixelDefined s f p = true

instance (s : TurtlebotFollower) (f : DepthFrame) : Decidable (ScanDefined s f) := by
  unfold ScanDefined
  infer_instance

/-! ## Sequences of frames -/

/-- A blob report with `blob_count` blobs followed by a depth frame whose scan
ends with the locals `a`. -/
def frameStep (s : TurtlebotFollower) (e : ℕ × Acc) : FrameResult :=
  imagecb_control (blobsCallBack s e.1) e.2

/-- The object after a sequence of blob reports and frames. -/
def runState (s : TurtlebotFollower) : List (ℕ × Acc) → TurtlebotFollower
  | [] => s
  | e :: es => runState (frameStep s e).state es

/-- Per frame of a sequence: the commands it published and the value of `count`
once it has been processed. -/
def runTrace (s : TurtlebotFollower) : List (ℕ × Acc) → List (List Twist × ℤ)
  | [] => []
  | e :: es =>
    ((frameStep s e).pub.cmd_vel, (frameStep s e).state.count) ::
      runTrace (frameStep s e).state es

/-! ## Sequences of callbacks -/

/-- One callback of the nodelet with its argument.  The nodelet takes its
handles from `getNodeHandle` and `getPrivateNodeHandle`, whose callbacks are
served one at a time, so a run of the nodelet is a sequence of these. -/
inductive Event where
  /-- A depth image: `imagecb`. -/
  | depth (f : DepthFrame)
  /-- A blob report with `blob_count` blobs: `blobsCallBack`. -/
  | blobs (blob_count : ℕ)
  /-- A reconfiguration: `reconfigure`. -/
  | reconfig (config : FollowerConfig) (level : ℕ)
  /-- A request with `request.state = request_state`: `changeModeSrvCb`. -/
  | changeMode (request_state : ℕ)
  deriving DecidableEq, Repr

/-- The object after one callback. -/
def handle (sin : ℚ → ℚ) (K : SetFollowState) (s : TurtlebotFollower) :
    Event → Except Fault TurtlebotFollower
  | .depth f =>
    match imagecb sin s f with
    | .error e => .error e
    | .ok r => .ok r.state
  | .blobs blob_count => .ok (blobsCallBack s blob_count)
  | .reconfig config level => .ok (reconfigure s config level)
  | .changeMode request_state => .ok (changeModeSrvCb K s request_state).state

/-- The object after a sequence of callbacks. -/
def runEvents (sin : ℚ → ℚ) (K : SetFollowState) (s : TurtlebotFollower) :
    List Event → Except Fault TurtlebotFollower
  | [] => .ok s
  | e :: es =>
    match handle sin K s e with
    | .error x => .error x
    | .ok s1 => runEvents sin K s1 es

/-- The object after a sequence of reconfigurations. -/
def reconfigures (s : TurtlebotFollower) : List (FollowerConfig × ℕ) → TurtlebotFollower
  | [] => s
  | c :: cs => reconfigures (reconfigure s c.1 c.2) cs

/-- Whether the event is a request to `changeModeSrvCb`. -/
def Event.isRequest : Event → Bool
  | .changeMode _ => true
  | _ => false

/-! ## The projector tables of the specification -/

/-- Section 4.1 of the specification, from its words: `sinX[u]` is
`sin((u - halfWidth) * xAnglePerPixel)` with
`xAnglePerPixel = (60/57) / halfWidth` and `halfWidth = floor(W/2)`. -/
def Spec.sinX (sin : ℚ → ℚ) (W u : ℕ) : ℚ :=
  sin (((u : ℚ) - ((W / 2 : ℕ) : ℚ)) * (60 / 57 / ((W / 2 : ℕ) : ℚ)))

/-- Section 4.1 of the specification, from its words: `sinY[v]` is
`sin((halfHeight - v) * yAnglePerPixel)` with
`yAnglePerPixel = (45/57) / halfWidth` and `halfHeight = H/2`. -/
def Spec.sinY (sin : ℚ → ℚ) (W H v : ℕ) : ℚ :=
  sin (((H : ℚ) / 2 - (v : ℚ)) * (45 / 57 / ((W / 2 : ℕ) : ℚ)))

/-! ## Concrete inputs -/

/-- A rational stand-in for the sine, used where a definition is evaluated at a
concrete frame: the Taylor polynomial of degree five. -/
def sinPoly (a : ℚ) : ℚ := a - a ^ 3 / 6 + a ^ 5 / 120

/-- The object after construction and `onInit` with only `enabled` set on the
parameter server. -/
def startState : TurtlebotFollower :=
  onInit
    (TurtlebotFollower.construct
      { min_y_ := 0, max_y_ := 0, min_x_ := 0, max_x_ := 0, max_z_ := 0, goal_z_ := 0,
        z_scale_ := 0, x_scale_ := 0, enabled_ := false, count := 0, rotate_ := false,
        dir_ := 0, seesBlobs_ := false, seesObstacle_ := false })
    { min_y := none, max_y := none, min_x := none, max_x := none, max_z := none,
      goal_z := none, z_scale := none, x_scale := none, enabled := some true }
    none

/-- A frame without pixels. -/
def emptyFrame : DepthFrame := { width := 0, height := 0, step := 0, data := [] }

/-- A frame of one pixel whose depth is not finite. -/
def invalidFrame : DepthFrame := { width := 1, height := 1, step := 4, data := [none] }

/-- A frame of two columns and one row whose right-hand pixel holds a finite
depth inside `max_z_`. -/
def rightPixelFrame : DepthFrame :=
  { width := 2, height := 1, step := 8, data := [none, some (3 / 10)] }

/-- A frame of four columns and two rows: two pixels in the left half of the
top row hold a depth of 0.3 m, every other pixel is not finite. -/
def twoPointFrame : DepthFrame :=
  { width := 4, height := 2, step := 16,
    data := [some (3 / 10), some (3 / 10), none, none, none, none, none, none] }

/-- A frame of four columns and two rows whose only finite pixel, on the axis of
both tables, holds a depth of two million metres. -/
def farPointFrame : DepthFrame :=
  { width := 4, height := 2, step := 16,
    data := [none, none, none, none, none, some 2000000, none, none] }

/-- A state in the middle of an avoidance cycle. -/
def avoidingState : TurtlebotFollower :=
  { startState with seesObstacle_ := true, count := 1 }

/-- An avoiding state reconfigured to a box of one metre around the axis that
reaches three million metres deep. -/
def wideState : TurtlebotFollower :=
  reconfigure avoidingState
    { min_y := -1, max_y := 1, min_x := -1, max_x := 1, max_z := 3000000,
      goal_z := 6 / 5, z_scale := 1, x_scale := 5 } 0

/-- A configuration whose box is empty in `x`: `min_x` above `max_x`. -/
def emptyBoxConfig : FollowerConfig :=
  { min_y := 1 / 10, max_y := 1 / 2, min_x := 1, max_x := 0, max_z := 4 / 5,
    goal_z := 6 / 5, z_scale := 1, x_scale := 5 }

/-- A configuration with a proper box. -/
def properConfig : FollowerConfig :=
  { min_y := 0, max_y := 1, min_x := -1, max_x := 1, max_z := 2,
    goal_z := 6 / 5, z_scale := 1, x_scale := 5 }

/-- A choice of the message constants, for concrete runs. -/
def msgConsts : SetFollowState := { STOPPED := 0, FOLLOW := 1, OK := 0 }

/-- A bounded rational stand-in for the sine: `sinPoly` cut off at the range
`[-1, 1]` of the sine. -/
def sinClamp (a : ℚ) : ℚ := max (-1) (min 1 (sinPoly a))

/-- A configuration whose box spans three metres to each side of the axis, with
`max_z = z`. -/
def openConfig (z : ℚ) : FollowerConfig :=
  { min_y := -3, max_y := 3, min_x := -3, max_x := 3, max_z := z,
    goal_z := 6 / 5, z_scale := 1, x_scale := 5 }

/-- The start state reconfigured to `openConfig z`. -/
def openState (z : ℚ) : TurtlebotFollower := reconfigure startState (openConfig z) 0

/-- A frame of four columns and two rows with a depth of 0.3 m at every pixel. -/
def fullFrame : DepthFrame :=
  { width := 4, height := 2, step := 16,
    data := [some (3 / 10), some (3 / 10), some (3 / 10), some (3 / 10),
             some (3 / 10), some (3 / 10), some (3 / 10), some (3 / 10)] }

/-- The frame `twoPointFrame` with one more finite pixel, 0.9 m deep, in column
2 of the top row. -/
def reachFrame : DepthFrame :=
  { width := 4, height := 2, step := 16,
    data := [some (3 / 10), some (3 / 10), some (9 / 10), none, none, none, none, none] }

/-- A frame of four columns and two rows whose top row holds 0.3 m in column 0
and 0.9 m in column 1; every other pixel is not finite. -/
def risingFrame : DepthFrame :=
  { width := 4, height := 2, step := 16,
    data := [some (3 / 10), some (9 / 10), none, none, none, none, none, none] }

/-- A frame of 80 by 80 pixels: a depth of 1 m in the 40 columns of the left
half, not finite in the right half. -/
def denseFrame : DepthFrame :=
  { width := 80, height := 80, step := 320,
    data := (List.range 6400).map fun (i : ℕ) => if i % 80 < 40 then some 1 else none }

/-- A frame of 131072 columns and 65536 rows whose row stride is zero, so that
every row reads the same 131072 floats: 1 m in column 0, 2 m in the other
columns of the left half, not finite in the right half. -/
def wrapFrame : DepthFrame :=
  { width := 131072, height := 65536, step := 0,
    data := (List.range 131072).map fun (u : ℕ) =>
      if u = 0 then some 1 else if u < 65536 then some 2 else none }

/-- A run that starts an avoidance cycle: the box is opened, no blob is
reported, and two frames with 3200 accepted points arrive. -/
def cycleRun : List Event :=
  [.reconfig (openConfig 2) 0, .blobs 0, .depth denseFrame, .depth denseFrame]

/-- The object at the end of `cycleRun` from `startState`: two frames into the
turn phase. -/
def cycleRunEnd : TurtlebotFollower :=
  { openState 2 with seesObstacle_ := true, count := 2 }

/-- The run `cycleRun` followed by a STOPPED request. -/
def stoppedRun : List Event := cycleRun ++ [.changeMode 0]

/-- The object at the end of `stoppedRun`: disabled in the middle of the cycle. -/
def stoppedRunEnd : TurtlebotFollower :=
  { cycleRunEnd with enabled_ := false }

/-- Callbacks that arrive while disabled: a frame with 3200 accepted points, a
blob report, a frame without a finite pixel, a reconfiguration and a frame
without pixels. -/
def idleRun : List Event :=
  [.depth denseFrame, .blobs 1, .depth invalidFrame, .reconfig properConfig 0,
   .depth emptyFrame]

/-- The object at the end of `idleRun` from `stoppedRunEnd`. -/
def idleRunEnd : TurtlebotFollower :=
  { reconfigure stoppedRunEnd properConfig 0 with seesBlobs_ := true }

/-! ## Basic facts -/

theorem imagecb_of_scan {sin : ℚ → ℚ} {s : TurtlebotFollower} {f : DepthFrame} {a : Acc}
    (h : imagecb_scan sin s f = .ok a) : imagecb sin s f = .ok (imagecb_control s a) := by
  simp [imagecb, h]

theorem imagecb_scan_emptyFrame (sin : ℚ → ℚ) (s : TurtlebotFollower) :
    imagecb_scan sin s emptyFrame = .ok Acc.init := by
  simp [imagecb_scan, emptyFrame, pixels, toInt32, scanLoop]

theorem imagecb_scan_invalidFrame (sin : ℚ → ℚ) (s : TurtlebotFollower) :
    imagecb_scan sin s invalidFrame = .ok Acc.init := by
  simp [imagecb_scan, invalidFrame, pixels, toInt32, scanLoop, scanPixel]

theorem imagecb_scan_twoPointFrame :
    imagecb_scan sinPoly avoidingState twoPointFrame =
      .ok { x := -373163 / 2476099, y := 146261367 / 633881344, z := 3 / 10, n := 2 } := by
  norm_num [imagecb_scan, scanLoop, scanPixel, pixels, toInt32, sin_pixel_x, sin_pixel_y,
    image_width, twoPointFrame, avoidingState, startState, onInit,
    TurtlebotFollower.construct, List.range_succ, x_radians_per_pixel, y_radians_per_pixel,
    fdiv, sinPoly, inBox, Acc.init]

/-! ## The controller, one frame -/

/-- Claim C3.  With `count` at `2 * TURN_THRES = 180`, a frame processed while
enabled, with the obstacle-or-near condition true and no target visible,
returns, clears `seesObstacle_`, resets `count` to zero and publishes the
all-zero command and nothing else. -/
theorem imagecb_cycle_complete (sin : ℚ → ℚ) (s : TurtlebotFollower) (f : DepthFrame)
    (a : Acc) (hscan : imagecb_scan sin s f = .ok a)
    (hcount : s.count = 2 * TURN_THRES) (hen : s.enabled_ = true)
    (hobs : a.n > 3000 ∨ s.seesObstacle_ = true) (hvis : s.seesBlobs_ = false) :
    2 * TURN_THRES = 180 ∧
    ∃ r, imagecb sin s f = .ok r ∧ r.state.seesObstacle_ = false ∧ r.state.count = 0 ∧
      r.pub.cmd_vel = [{ linear_x := 0, angular_z := 0 }] := by
  refine ⟨by simp [TURN_THRES], imagecb_control s a, imagecb_of_scan hscan, ?_⟩
  simp [imagecb_control, hobs, hen, hvis, hcount, TURN_THRES]

theorem imagecb_cycle_complete_witness :
    2 * TURN_THRES = 180 ∧
    ∃ r, imagecb sinPoly { startState with count := 180, seesObstacle_ := true } emptyFrame
        = .ok r ∧
      r.state.seesObstacle_ = false ∧ r.state.count = 0 ∧
      r.pub.cmd_vel = [{ linear_x := 0, angular_z := 0 }] :=
  imagecb_cycle_complete sinPoly { startState with count := 180, seesObstacle_ := true }
    emptyFrame Acc.init (imagecb_scan_emptyFrame _ _) (by simp [TURN_THRES])
    (by simp [startState, onInit]) (Or.inr rfl)
    (by simp [startState, onInit, TurtlebotFollower.construct])

/-- Claim C4.  While `seesObstacle_` is set, the nodelet is enabled and no
target is visible, two frames with arbitrary accepted-point counts are both
processed to the same commands and the same next object, `count` and
`seesObstacle_` included. -/
theorem imagecb_avoiding_ignores_points (sin : ℚ → ℚ) (s : TurtlebotFollower)
    (f1 f2 : DepthFrame) (a1 a2 : Acc)
    (h1 : imagecb_scan sin s f1 = .ok a1) (h2 : imagecb_scan sin s f2 = .ok a2)
    (havoid : s.seesObstacle_ = true) (hen : s.enabled_ = true)
    (hvis : s.seesBlobs_ = false) :
    ∃ r1 r2, imagecb sin s f1 = .ok r1 ∧ imagecb sin s f2 = .ok r2 ∧
      r1.pub.cmd_vel = r2.pub.cmd_vel ∧ r1.state = r2.state ∧
      r1.state.count = r2.state.count ∧
      r1.state.seesObstacle_ = r2.state.seesObstacle_ := by
  refine ⟨imagecb_control s a1, imagecb_control s a2, imagecb_of_scan h1,
    imagecb_of_scan h2, ?_⟩
  simp only [imagecb_control, havoid, hen, hvis, or_true, if_true]
  split_ifs <;> simp

theorem imagecb_avoiding_ignores_points_witness :
    ∃ r1 r2, imagecb sinPoly avoidingState emptyFrame = .ok r1 ∧
      imagecb sinPoly avoidingState twoPointFrame = .ok r2 ∧
      r1.pub.cmd_vel = r2.pub.cmd_vel ∧ r1.state = r2.state ∧
      r1.state.count = r2.state.count ∧
      r1.state.seesObstacle_ = r2.state.seesObstacle_ :=
  imagecb_avoiding_ignores_points sinPoly avoidingState emptyFrame twoPointFrame Acc.init
    { x := -373163 / 2476099, y := 146261367 / 633881344, z := 3 / 10, n := 2 }
    (imagecb_scan_emptyFrame _ _) imagecb_scan_twoPointFrame rfl rfl rfl

/-- Claim C5.  While enabled, a frame whose scan ends with `n` accepted points
is processed to exactly what the transition table of the specification gives
for `seesObstacle_`, `count`, `n` and `seesBlobs_`, and exactly one command is
published. -/
theorem imagecb_refines_table (sin : ℚ → ℚ) (s : TurtlebotFollower) (f : DepthFrame)
    (a : Acc) (hscan : imagecb_scan sin s f = .ok a) (hen : s.enabled_ = true) :
    ∃ r, imagecb sin s f = .ok r ∧
      (r.state.seesObstacle_, r.state.count, r.pub.cmd_vel) =
        Spec.transition s.seesObstacle_ s.count a.n s.seesBlobs_ ∧
      r.pub.cmd_vel.length = 1 := by
  refine ⟨imagecb_control s a, imagecb_of_scan hscan, ?_⟩
  unfold imagecb_control Spec.transition
  cases hb : s.seesBlobs_ <;> cases ho : s.seesObstacle_ <;>
    by_cases hn : a.n > 3000 <;>
    simp [hen, hb, ho, hn, TURN_THRES] <;>
    split_ifs <;> simp_all

theorem imagecb_refines_table_witness :
    ∃ r, imagecb sinPoly avoidingState twoPointFrame = .ok r ∧
      (r.state.seesObstacle_, r.state.count, r.pub.cmd_vel) =
        Spec.transition avoidingState.seesObstacle_ avoidingState.count 2
          avoidingState.seesBlobs_ ∧
      r.pub.cmd_vel.length = 1 :=
  imagecb_refines_table sinPoly avoidingState twoPointFrame
    { x := -373163 / 2476099, y := 146261367 / 633881344, z := 3 / 10, n := 2 }
    imagecb_scan_twoPointFrame rfl

/-- Claim C6.  `changeModeSrvCb`: a STOPPED request while enabled publishes one
all-zero command and clears `enabled_`; a FOLLOW request while disabled sets
`enabled_` and publishes nothing; any other request publishes nothing and keeps
`enabled_`; the result is always OK, the callback returns true, and `count` and
`seesObstacle_` are never touched. -/
theorem changeModeSrvCb_spec (K : SetFollowState) (s : TurtlebotFollower) (q : ℕ) :
    (s.enabled_ = true ∧ q = K.STOPPED →
        (changeModeSrvCb K s q).cmd_vel = [{ linear_x := 0, angular_z := 0 }] ∧
        (changeModeSrvCb K s q).state.enabled_ = false) ∧
    (s.enabled_ = false ∧ q = K.FOLLOW →
        (changeModeSrvCb K s q).cmd_vel = [] ∧
        (changeModeSrvCb K s q).state.enabled_ = true) ∧
    (¬ (s.enabled_ = true ∧ q = K.STOPPED) ∧ ¬ (s.enabled_ = false ∧ q = K.FOLLOW) →
        (changeModeSrvCb K s q).cmd_vel = [] ∧
        (changeModeSrvCb K s q).state.enabled_ = s.enabled_) ∧
    (changeModeSrvCb K s q).result = K.OK ∧
    (changeModeSrvCb K s q).ret = true ∧
    (changeModeSrvCb K s q).state.count = s.count ∧
    (changeModeSrvCb K s q).state.seesObstacle_ = s.seesObstacle_ := by
  unfold changeModeSrvCb
  split_ifs with h1 h2
  · have h3 : ¬ (s.enabled_ = false ∧ q = K.FOLLOW) := fun h => by simp [h1.1] at h
    simp [h1, h3]
  · simp [h1, h2]
  · simp [h1, h2]

/-! ## The controller, sequences of frames -/

theorem runTrace_append (s : TurtlebotFollower) (l1 l2 : List (ℕ × Acc)) :
    runTrace s (l1 ++ l2) = runTrace s l1 ++ runTrace (runState s l1) l2 := by
  induction l1 generalizing s with
  | nil => rfl
  | cons e es ih => simp [runTrace, runState, ih]

theorem runState_append (s : TurtlebotFollower) (l1 l2 : List (ℕ × Acc)) :
    runState s (l1 ++ l2) = runState (runState s l1) l2 := by
  induction l1 generalizing s with
  | nil => rfl
  | cons e es ih => simp [runState, ih]

/-- Frames of the turn phase: avoiding, enabled, no blob, `count` below
`TURN_THRES` throughout. -/
theorem runTrace_turning (as : List Acc) (s : TurtlebotFollower)
    (hen : s.enabled_ = true) (hav : s.seesObstacle_ = true)
    (hc : s.count + as.length ≤ 90) :
    runTrace s (as.map fun a => (0, a)) =
        (List.range as.length).map
          (fun (i : ℕ) => ([({ linear_x := 0, angular_z := 3 / 5 } : Twist)], s.count + 1 + (i : ℤ))) ∧
      (runState s (as.map fun a => (0, a))).count = s.count + as.length ∧
      (runState s (as.map fun a => (0, a))).enabled_ = true ∧
      (runState s (as.map fun a => (0, a))).seesObstacle_ = true := by
  induction as generalizing s with
  | nil => simp [runTrace, runState, hen, hav]
  | cons a as ih =>
    have hlt : s.count < 90 := by simp at hc; omega
    have hstep : frameStep s (0, a) =
        { state := { s with seesBlobs_ := false, seesObstacle_ := true, count := s.count + 1 },
          centroid := { x := fdiv a.x a.n, y := fdiv a.y a.n, z := a.z, count := a.n },
          pub := { cmd_vel := [{ linear_x := 0, angular_z := 3 / 5 }],
                   marker := [publishMarker (fdiv a.x a.n) (fdiv a.y a.n) a.z],
                   bbox := [publishBbox { s with seesBlobs_ := false }] } } := by
      simp [frameStep, blobsCallBack, imagecb_control, hen, hav, hlt, TURN_THRES]
    have h := ih { s with seesBlobs_ := false, seesObstacle_ := true, count := s.count + 1 }
      hen rfl (by simp at hc ⊢; omega)
    simp only [List.map_cons, runTrace, runState, hstep, List.length_cons]
    refine ⟨?_, ?_, h.2.2.1, h.2.2.2⟩
    · rw [h.1, List.range_succ_eq_map, List.map_cons, List.map_map]
      simp only [Nat.cast_zero, add_zero, List.cons.injEq, true_and]
      apply List.map_congr_left
      intro i _
      simp only [Function.comp, Nat.succ_eq_add_one, Nat.cast_add, Nat.cast_one, Prod.mk.injEq,
        true_and]
      ring
    · rw [h.2.1]
      push_cast
      ring

/-- Frames of the advance phase: avoiding, enabled, no blob, `count` from
`TURN_THRES` and below `2 * TURN_THRES` throughout. -/
theorem runTrace_advancing (as : List Acc) (s : TurtlebotFollower)
    (hen : s.enabled_ = true) (hav : s.seesObstacle_ = true)
    (hlo : 90 ≤ s.count) (hc : s.count + as.length ≤ 180) :
    runTrace s (as.map fun a => (0, a)) =
        (List.range as.length).map
          (fun (i : ℕ) => ([({ linear_x := 3 / 10, angular_z := 0 } : Twist)], s.count + 1 + (i : ℤ))) ∧
      (runState s (as.map fun a => (0, a))).count = s.count + as.length ∧
      (runState s (as.map fun a => (0, a))).enabled_ = true ∧
      (runState s (as.map fun a => (0, a))).seesObstacle_ = true := by
  induction as generalizing s with
  | nil => simp [runTrace, runState, hen, hav]
  | cons a as ih =>
    have hlt : s.count < 180 := by simp at hc; omega
    have hge : ¬ s.count < 90 := by omega
    have hstep : frameStep s (0, a) =
        { state := { s with seesBlobs_ := false, seesObstacle_ := true, count := s.count + 1 },
          centroid := { x := fdiv a.x a.n, y := fdiv a.y a.n, z := a.z, count := a.n },
          pub := { cmd_vel := [{ linear_x := 3 / 10, angular_z := 0 }],
                   marker := [publishMarker (fdiv a.x a.n) (fdiv a.y a.n) a.z],
                   bbox := [publishBbox { s with seesBlobs_ := false }] } } := by
      simp [frameStep, blobsCallBack, imagecb_control, hen, hav, hlt, hge, TURN_THRES]
    have h := ih { s with seesBlobs_ := false, seesObstacle_ := true, count := s.count + 1 }
      hen rfl (by simp; omega) (by simp at hc ⊢; omega)
    simp only [List.map_cons, runTrace, runState, hstep, List.length_cons]
    refine ⟨?_, ?_, h.2.2.1, h.2.2.2⟩
    · rw [h.1, List.range_succ_eq_map, List.map_cons, List.map_map]
      simp only [Nat.cast_zero, add_zero, List.cons.injEq, true_and]
      apply List.map_congr_left
      intro i _
      simp only [Function.comp, Nat.succ_eq_add_one, Nat.cast_add, Nat.cast_one, Prod.mk.injEq,
        true_and]
      ring
    · rw [h.2.1]
      push_cast
      ring

/-- Claim C2.  From a state with `count = 0`, `seesObstacle_ = false` and
`enabled_ = true` (the state `onInit` leaves when following is enabled), the 98
frames with (obstacle-or-near, target-visible) equal to (F,F), (F,T) and then
96 times (T,F) publish, in order: the search command, the approach command with
`count` left at 0, ninety turn commands with `count` running from 1 to 90, and
six advance commands with `count` running from 91 to 96.  The first two frames
have at most 3000 accepted points, the third more than 3000, the last 95 any
number. -/
theorem runTrace_literal_sequence (s : TurtlebotFollower) (a1 a2 a3 : Acc) (b2 : ℕ)
    (as : List Acc) (h0 : s.count = 0) (hav : s.seesObstacle_ = false)
    (hen : s.enabled_ = true) (hn1 : a1.n ≤ 3000) (hn2 : a2.n ≤ 3000) (hb2 : 0 < b2)
    (hn3 : 3000 < a3.n) (hlen : as.length = 95) :
    runTrace s ((0, a1) :: (b2, a2) :: (0, a3) :: as.map fun a => (0, a)) =
      [([({ linear_x := 0, angular_z := 1 / 2 } : Twist)], (0 : ℤ)),
       ([({ linear_x := 1 / 2, angular_z := 0 } : Twist)], (0 : ℤ))] ++
      (List.range 90).map
        (fun (i : ℕ) => ([({ linear_x := 0, angular_z := 3 / 5 } : Twist)], (i : ℤ) + 1)) ++
      (List.range 6).map
        (fun (i : ℕ) => ([({ linear_x := 3 / 10, angular_z := 0 } : Twist)], (i : ℤ) + 91)) := by
  have hsplit : as = as.take 89 ++ as.drop 89 := (List.take_append_drop 89 as).symm
  have hl1 : (as.take 89).length = 89 := by simp [hlen]
  have hl2 : (as.drop 89).length = 6 := by simp [hlen]
  generalize as.take 89 = l1 at hsplit hl1
  generalize as.drop 89 = l2 at hsplit hl2
  subst hsplit
  have hn1' : ¬ a1.n > 3000 := by omega
  have hn2' : ¬ a2.n > 3000 := by omega
  have hhead : ∀ rest : List (ℕ × Acc),
      runTrace s ((0, a1) :: (b2, a2) :: (0, a3) :: rest) =
        ([({ linear_x := 0, angular_z := 1 / 2 } : Twist)], (0 : ℤ)) ::
        ([({ linear_x := 1 / 2, angular_z := 0 } : Twist)], (0 : ℤ)) ::
        ([({ linear_x := 0, angular_z := 3 / 5 } : Twist)], (1 : ℤ)) ::
        runTrace { s with seesBlobs_ := false, seesObstacle_ := true, count := 1 } rest := by
    intro rest
    simp [runTrace, frameStep, blobsCallBack, imagecb_control, hav, hen, h0, hn1', hn2',
      hn3, hb2, TURN_THRES]
  obtain ⟨ht1, hc1, he1, ho1⟩ := runTrace_turning l1
    { s with seesBlobs_ := false, seesObstacle_ := true, count := 1 } hen rfl
    (by simp [hl1])
  obtain ⟨ht2, -, -, -⟩ := runTrace_advancing l2
    (runState { s with seesBlobs_ := false, seesObstacle_ := true, count := 1 }
      (l1.map fun a => (0, a))) he1 ho1 (by rw [hc1]; simp [hl1]) (by rw [hc1]; simp [hl1, hl2])
  rw [hhead, List.map_append, runTrace_append, ht1, ht2, hc1, hl1, hl2]
  have h90 : List.range 90 = 0 :: (List.range 89).map Nat.succ := List.range_succ_eq_map 89
  rw [h90]
  simp only [List.map_cons, List.map_map, List.cons_append, List.nil_append, List.cons.injEq,
    Nat.cast_zero, zero_add, true_and, and_true, List.append_cancel_right_eq]
  have e1 : ∀ i : ℕ, (1 : ℤ) + 1 + (i : ℤ) = ((Nat.succ i : ℕ) : ℤ) + 1 := by
    intro i; push_cast; ring
  have e2 : ∀ i : ℕ, (1 : ℤ) + ((89 : ℕ) : ℤ) + 1 + (i : ℤ) = (i : ℤ) + 91 := by
    intro i; push_cast; ring
  simp only [e1, e2]
  rfl

theorem runTrace_literal_sequence_witness :
    runTrace startState
        ((0, Acc.init) :: (1, Acc.init) :: (0, { Acc.init with n := 3001 }) ::
          (List.replicate 95 Acc.init).map fun a => (0, a)) =
      [([({ linear_x := 0, angular_z := 1 / 2 } : Twist)], (0 : ℤ)),
       ([({ linear_x := 1 / 2, angular_z := 0 } : Twist)], (0 : ℤ))] ++
      (List.range 90).map
        (fun (i : ℕ) => ([({ linear_x := 0, angular_z := 3 / 5 } : Twist)], (i : ℤ) + 1)) ++
      (List.range 6).map
        (fun (i : ℕ) => ([({ linear_x := 3 / 10, angular_z := 0 } : Twist)], (i : ℤ) + 91)) :=
  runTrace_literal_sequence startState Acc.init Acc.init { Acc.init with n := 3001 } 1
    (List.replicate 95 Acc.init) (by simp [startState, onInit]) (by simp [startState, onInit])
    (by simp [startState, onInit]) (by simp [Acc.init]) (by simp [Acc.init]) (by decide)
    (by simp) (by simp)

/-! ## The scan -/

theorem scanPixel_of_accepted {s : TurtlebotFollower} {tx ty : List (Option ℚ)}
    {f : DepthFrame} {p : ℕ × ℕ} {xv yv d : ℚ} (a : Acc)
    (h : Spec.acceptedAt s tx ty f p = some (xv, yv, d)) :
    scanPixel s tx ty f a p =
      .ok { x := a.x + xv, y := a.y + yv, z := min a.z d, n := (a.n + 1) % 2 ^ 32 } := by
  unfold Spec.acceptedAt at h
  unfold scanPixel
  rcases hd : f.data[p.1 * (f.step / 4) + p.2]? with _ | _ | depth <;> simp [hd] at h ⊢
  rcases hy : ty[p.1]? with _ | _ | sy <;> simp [hy] at h ⊢
  rcases hx : tx[p.2]? with _ | _ | sx <;> simp [hx] at h ⊢
  obtain ⟨⟨h1, h2, h3, h4, h5⟩, rfl, rfl, rfl⟩ := h
  simp [inBox, not_lt.mpr h1, h2, h3, h4, h5]

theorem scanPixel_of_rejected {s : TurtlebotFollower} {tx ty : List (Option ℚ)}
    {f : DepthFrame} {p : ℕ × ℕ} {a a1 : Acc}
    (h : Spec.acceptedAt s tx ty f p = none) (hok : scanPixel s tx ty f a p = .ok a1) :
    a1 = a := by
  unfold Spec.acceptedAt at h
  unfold scanPixel at hok
  rcases hd : f.data[p.1 * (f.step / 4) + p.2]? with _ | _ | depth <;> simp [hd] at h hok
  · exact hok.symm
  · by_cases hz : depth > s.max_z_
    · simp [hz] at hok; exact hok.symm
    · rcases hy : ty[p.1]? with _ | _ | sy <;> simp [hy, hz] at h hok
      · rcases hx : tx[p.2]? with _ | sx <;> simp [hx] at hok
        exact hok.symm
      · rcases hx : tx[p.2]? with _ | _ | sx <;> simp [hx] at h hok
        · exact hok.symm
        · have hnb : inBox s (sy * depth) (sx * depth) = false := by
            simp only [inBox, decide_eq_false_iff_not, gt_iff_lt]
            intro hb
            exact absurd hb.2.2.2 (not_lt.mpr (h (not_lt.mp hz) hb.1 hb.2.1 hb.2.2.1))
          simp [hnb] at hok
          exact hok.symm

/-- What a completed run of the loops has added to the locals: the sums of the
accepted `x_val` and `y_val`, the running minimum of the accepted depths, and
the number of accepted points, modulo `2^32`. -/
theorem scanLoop_result {s : TurtlebotFollower} {tx ty : List (Option ℚ)} {f : DepthFrame}
    (ps : List (ℕ × ℕ)) (a a1 : Acc) (hn : a.n < 2 ^ 32)
    (h : scanLoop s tx ty f ps a = .ok a1) :
    a1.x = a.x + ((ps.filterMap (Spec.acceptedAt s tx ty f)).map fun q => q.1).sum ∧
    a1.y = a.y + ((ps.filterMap (Spec.acceptedAt s tx ty f)).map fun q => q.2.1).sum ∧
    a1.z = ((ps.filterMap (Spec.acceptedAt s tx ty f)).map fun q => q.2.2).foldl min a.z ∧
    a1.n = (a.n + (ps.filterMap (Spec.acceptedAt s tx ty f)).length) % 2 ^ 32 := by
  induction ps generalizing a with
  | nil =>
    simp only [scanLoop, Except.ok.injEq] at h
    subst h
    have hn' : a.n % 4294967296 = a.n := Nat.mod_eq_of_lt (by simpa using hn)
    simp [hn']
  | cons p ps ih =>
    rcases hacc : Spec.acceptedAt s tx ty f p with _ | ⟨xv, yv, d⟩
    · rcases hpix : scanPixel s tx ty f a p with e | a2
      · simp [scanLoop, hpix] at h
      · have := scanPixel_of_rejected hacc hpix
        subst this
        simp only [scanLoop, hpix] at h
        simpa [List.filterMap_cons, hacc] using ih a2 hn h
    · have hpix := scanPixel_of_accepted a hacc
      simp only [scanLoop, hpix] at h
      have hlt : (a.n + 1) % 2 ^ 32 < 2 ^ 32 := Nat.mod_lt _ (by norm_num)
      obtain ⟨hx, hy, hz, hcnt⟩ := ih _ hlt h
      simp only [List.filterMap_cons, hacc, List.map_cons, List.sum_cons, List.foldl_cons,
        List.length_cons]
      refine ⟨by rw [hx]; ring, by rw [hy]; ring, hz, ?_⟩
      rw [hcnt]
      simp only [Nat.add_mod, Nat.mod_mod]
      omega

/-- A pixel whose reads stay inside the buffer and the tables is processed. -/
theorem scanPixel_defined {s : TurtlebotFollower} {tx ty : List (Option ℚ)} {f : DepthFrame}
    {p : ℕ × ℕ} (a : Acc)
    (h : ∃ r, f.data[p.1 * (f.step / 4) + p.2]? = some r ∧
      ∀ d, r = some d → d ≤ s.max_z_ → p.1 < ty.length ∧ p.2 < tx.length) :
    ∃ a1, scanPixel s tx ty f a p = .ok a1 := by
  obtain ⟨r, hr, hin⟩ := h
  unfold scanPixel
  simp only [hr]
  rcases r with _ | depth
  · exact ⟨a, rfl⟩
  · by_cases hz : depth > s.max_z_
    · exact ⟨a, by simp [hz]⟩
    · obtain ⟨hv, hu⟩ := hin depth rfl (not_lt.mp hz)
      simp only [hz, if_false, List.getElem?_eq_getElem hv, List.getElem?_eq_getElem hu]
      rcases ty[p.1] with _ | sy <;> rcases tx[p.2] with _ | sx <;> simp
      split_ifs
      · exact ⟨_, rfl⟩
      · exact ⟨_, rfl⟩

theorem scanLoop_defined {s : TurtlebotFollower} {tx ty : List (Option ℚ)} {f : DepthFrame}
    (ps : List (ℕ × ℕ)) (a : Acc)
    (h : ∀ p ∈ ps, ∃ r, f.data[p.1 * (f.step / 4) + p.2]? = some r ∧
      ∀ d, r = some d → d ≤ s.max_z_ → p.1 < ty.length ∧ p.2 < tx.length) :
    ∃ a1, scanLoop s tx ty f ps a = .ok a1 := by
  induction ps generalizing a with
  | nil => exact ⟨a, rfl⟩
  | cons p ps ih =>
    obtain ⟨a2, h2⟩ := scanPixel_defined a (h p (List.mem_cons_self _ _))
    obtain ⟨a3, h3⟩ := ih a2 (fun q hq => h q (List.mem_cons_of_mem _ hq))
    exact ⟨a3, by simp [scanLoop, h2, h3]⟩

theorem mem_pixels {f : DepthFrame} {p : ℕ × ℕ} :
    p ∈ pixels f ↔ p.1 < (toInt32 f.height).toNat ∧ p.2 < (toInt32 f.width).toNat := by
  obtain ⟨v, u⟩ := p
  simp [pixels]

theorem pixelDefined_reads {s : TurtlebotFollower} {f : DepthFrame} {p : ℕ × ℕ}
    (h : pixelDefined s f p = true) :
    ∃ r, f.data[p.1 * (f.step / 4) + p.2]? = some r ∧
      ∀ d, r = some d → d ≤ s.max_z_ → p.2 < image_width f := by
  unfold pixelDefined at h
  rcases hd : f.data[p.1 * (f.step / 4) + p.2]? with _ | _ | d <;> simp [hd] at h
  · exact ⟨none, rfl, fun d hd => by simp at hd⟩
  · refine ⟨some d, rfl, fun d1 hd1 hz => ?_⟩
    simp only [Option.some.injEq] at hd1
    subst hd1
    rcases h with h | h
    · exact absurd h (not_lt.mpr hz)
    · exact h

/-- A frame whose scan stays inside its arrays is scanned to the end. -/
theorem imagecb_scan_defined (sin : ℚ → ℚ) {s : TurtlebotFollower} {f : DepthFrame}
    (h : ScanDefined s f) : ∃ a, imagecb_scan sin s f = .ok a := by
  obtain ⟨hh, hp⟩ := h
  unfold imagecb_scan
  rw [if_neg (not_le.mpr hh)]
  apply scanLoop_defined
  intro p hmem
  obtain ⟨r, hr, hin⟩ := pixelDefined_reads (hp p hmem)
  refine ⟨r, hr, fun d hd hz => ⟨?_, ?_⟩⟩
  · have := (mem_pixels.mp hmem).1
    simp only [toInt32, hh, if_true, Int.toNat_ofNat] at this
    simpa [sin_pixel_y] using this
  · simpa [sin_pixel_x] using hin d hd hz

/-- A frame whose scan stays inside its arrays is scanned to the end, and the
locals then hold the sums, the minimum and the count of the accepted points. -/
theorem imagecb_scan_result (sin : ℚ → ℚ) {s : TurtlebotFollower} {f : DepthFrame}
    (h : ScanDefined s f) :
    ∃ a, imagecb_scan sin s f = .ok a ∧
      a.x = ((Spec.accepted sin s f).map fun q => q.1).sum ∧
      a.y = ((Spec.accepted sin s f).map fun q => q.2.1).sum ∧
      a.z = ((Spec.accepted sin s f).map fun q => q.2.2).foldl min 1000000 ∧
      a.n = (Spec.accepted sin s f).length % 2 ^ 32 := by
  obtain ⟨a, ha⟩ := imagecb_scan_defined sin h
  refine ⟨a, ha, ?_⟩
  unfold imagecb_scan at ha
  rw [if_neg (not_le.mpr h.1)] at ha
  have := scanLoop_result (pixels f) Acc.init a (by simp [Acc.init]) ha
  simpa [Acc.init, Spec.accepted] using this

theorem foldl_min_spec (ds : List ℚ) (z0 : ℚ) :
    ds.foldl min z0 ≤ z0 ∧ (∀ d ∈ ds, ds.foldl min z0 ≤ d) ∧
      (ds.foldl min z0 = z0 ∨ ds.foldl min z0 ∈ ds) := by
  induction ds generalizing z0 with
  | nil => simp
  | cons d ds ih =>
    obtain ⟨h1, h2, h3⟩ := ih (min z0 d)
    simp only [List.foldl_cons, List.mem_cons, forall_eq_or_imp]
    refine ⟨le_trans h1 (min_le_left _ _), ⟨le_trans h1 (min_le_right _ _), h2⟩, ?_⟩
    rcases h3 with h3 | h3
    · rcases min_choice z0 d with hm | hm
      · left; rw [h3, hm]
      · right; left; rw [h3, hm]
    · right; right; exact h3

theorem accepted_depth_le {sin : ℚ → ℚ} {s : TurtlebotFollower} {f : DepthFrame}
    {q : ℚ × ℚ × ℚ} (h : q ∈ Spec.accepted sin s f) : q.2.2 ≤ s.max_z_ := by
  simp only [Spec.accepted, List.mem_filterMap] at h
  obtain ⟨p, -, hp⟩ := h
  unfold Spec.acceptedAt at hp
  split at hp
  · split_ifs at hp with hc
    simp only [Option.some.injEq] at hp
    subst hp
    exact hc.1
  · simp at hp

/-! ## Concrete frames -/

theorem pixels_four_by_two {f : DepthFrame} (hw : f.width = 4) (hh : f.height = 2) :
    pixels f = [(0, 0), (0, 1), (0, 2), (0, 3), (1, 0), (1, 1), (1, 2), (1, 3)] := by
  simp [pixels, hw, hh, toInt32, List.range_succ]

theorem scanDefined_twoPointFrame (s : TurtlebotFollower) : ScanDefined s twoPointFrame := by
  refine ⟨by simp [twoPointFrame], ?_⟩
  rw [pixels_four_by_two rfl rfl]
  simp [pixelDefined, twoPointFrame, image_width]

theorem scanDefined_farPointFrame (s : TurtlebotFollower) : ScanDefined s farPointFrame := by
  refine ⟨by simp [farPointFrame], ?_⟩
  rw [pixels_four_by_two rfl rfl]
  simp [pixelDefined, farPointFrame, image_width]

theorem accepted_twoPointFrame (s : TurtlebotFollower) (hy0 : s.min_y_ = 1 / 10)
    (hy1 : s.max_y_ = 1 / 2) (hx0 : s.min_x_ = -(1 / 5)) (hx1 : s.max_x_ = 1 / 5)
    (hz : s.max_z_ = 4 / 5) :
    Spec.accepted sinPoly s twoPointFrame =
      [(-373163 / 2476099, 146261367 / 1267762688, 3 / 10),
       (0, 146261367 / 1267762688, 3 / 10)] := by
  unfold Spec.accepted
  rw [pixels_four_by_two rfl rfl]
  norm_num [Spec.acceptedAt, twoPointFrame, sin_pixel_x, sin_pixel_y, image_width,
    x_radians_per_pixel, y_radians_per_pixel, fdiv, sinPoly, List.range_succ, hy0, hy1, hx0,
    hx1, hz, -Prod.mk_zero_zero, -Prod.mk_one_one,
    List.filterMap_cons]

theorem accepted_farPointFrame :
    Spec.accepted sinPoly wideState farPointFrame = [(0, 0, 2000000)] := by
  unfold Spec.accepted
  rw [pixels_four_by_two rfl rfl]
  norm_num [Spec.acceptedAt, farPointFrame, sin_pixel_x, sin_pixel_y, image_width,
    x_radians_per_pixel, y_radians_per_pixel, fdiv, sinPoly, List.range_succ, wideState,
    reconfigure, -Prod.mk_zero_zero, -Prod.mk_one_one,
    List.filterMap_cons]

/-! ## The extraction -/

/-- Claim C10, as amended.  For a frame whose scan stays inside its arrays
(arithmetic exact): a pixel is
accepted exactly when its depth is finite, does not exceed `max_z_`, and
`min_y_ < sinY[v] * d < max_y_` and `min_x_ < sinX[u] * d < max_x_`, all four
strictly; a processed pixel bumps `n` exactly when it is accepted and otherwise
leaves the locals alone; a projected value on a face of the box is rejected;
and the scan ends with `n` equal to the number of accepted pixels modulo `2^32`,
hence equal to it when it is below `2^32`. -/
theorem scan_counts_accepted (sin : ℚ → ℚ) (s : TurtlebotFollower) (f : DepthFrame)
    (hdef : ScanDefined s f) :
    (∀ (tx ty : List (Option ℚ)) (p : ℕ × ℕ),
      (Spec.acceptedAt s tx ty f p).isSome = true ↔
        ∃ d sy sx, f.data[p.1 * (f.step / 4) + p.2]? = some (some d) ∧
          ty[p.1]? = some (some sy) ∧ tx[p.2]? = some (some sx) ∧ d ≤ s.max_z_ ∧
          s.min_y_ < sy * d ∧ sy * d < s.max_y_ ∧ s.min_x_ < sx * d ∧ sx * d < s.max_x_) ∧
    (∀ (tx ty : List (Option ℚ)) (a a1 : Acc) (p : ℕ × ℕ),
      scanPixel s tx ty f a p = .ok a1 →
        if (Spec.acceptedAt s tx ty f p).isSome = true then a1.n = (a.n + 1) % 2 ^ 32
        else a1 = a) ∧
    (∀ (tx ty : List (Option ℚ)) (p : ℕ × ℕ) (d sy sx : ℚ),
      f.data[p.1 * (f.step / 4) + p.2]? = some (some d) →
      ty[p.1]? = some (some sy) → tx[p.2]? = some (some sx) →
      (sx * d = s.min_x_ ∨ sx * d = s.max_x_ ∨ sy * d = s.min_y_ ∨ sy * d = s.max_y_) →
        Spec.acceptedAt s tx ty f p = none ∧ ∀ a, scanPixel s tx ty f a p = .ok a) ∧
    ∃ a, imagecb_scan sin s f = .ok a ∧
      a.n = (Spec.accepted sin s f).length % 2 ^ 32 ∧
      ((Spec.accepted sin s f).length < 2 ^ 32 → a.n = (Spec.accepted sin s f).length) := by
  have hiff : ∀ (tx ty : List (Option ℚ)) (p : ℕ × ℕ),
      (Spec.acceptedAt s tx ty f p).isSome = true ↔
        ∃ d sy sx, f.data[p.1 * (f.step / 4) + p.2]? = some (some d) ∧
          ty[p.1]? = some (some sy) ∧ tx[p.2]? = some (some sx) ∧ d ≤ s.max_z_ ∧
          s.min_y_ < sy * d ∧ sy * d < s.max_y_ ∧ s.min_x_ < sx * d ∧ sx * d < s.max_x_ := by
    intro tx ty p
    unfold Spec.acceptedAt
    constructor
    · intro h
      split at h
      · rename_i depth sy sx hd hy hx
        split_ifs at h with hc
        · exact ⟨depth, sy, sx, hd, hy, hx, hc⟩
        · simp at h
      · simp at h
    · rintro ⟨d, sy, sx, hd, hy, hx, hc⟩
      simp [hd, hy, hx, hc]
  refine ⟨hiff, ?_, ?_, ?_⟩
  · intro tx ty a a1 p hok
    rcases hacc : Spec.acceptedAt s tx ty f p with _ | ⟨xv, yv, d⟩
    · simpa using scanPixel_of_rejected hacc hok
    · rw [scanPixel_of_accepted a hacc] at hok
      simp only [Except.ok.injEq] at hok
      subst hok
      simp
  · intro tx ty p d sy sx hd hy hx hface
    have hnone : Spec.acceptedAt s tx ty f p = none := by
      rcases hacc : Spec.acceptedAt s tx ty f p with _ | q
      · rfl
      · exfalso
        obtain ⟨d1, sy1, sx1, hd1, hy1, hx1, -, h1, h2, h3, h4⟩ :=
          (hiff tx ty p).mp (by simp [hacc])
        rw [hd] at hd1
        rw [hy] at hy1
        rw [hx] at hx1
        simp only [Option.some.injEq] at hd1 hy1 hx1
        subst hd1 hy1 hx1
        rcases hface with h | h | h | h
        · rw [h] at h3; exact lt_irrefl _ h3
        · rw [h] at h4; exact lt_irrefl _ h4
        · rw [h] at h1; exact lt_irrefl _ h1
        · rw [h] at h2; exact lt_irrefl _ h2
    refine ⟨hnone, fun a => ?_⟩
    obtain ⟨a1, ha1⟩ : ∃ a1, scanPixel s tx ty f a p = .ok a1 :=
      scanPixel_defined a ⟨some d, hd, fun _ _ _ =>
        ⟨(List.getElem?_eq_some_iff.mp hy).1, (List.getElem?_eq_some_iff.mp hx).1⟩⟩
    rw [ha1, scanPixel_of_rejected hnone ha1]
  · obtain ⟨a, ha, -, -, -, hn⟩ := imagecb_scan_result sin hdef
    exact ⟨a, ha, hn, fun hlt => by rw [hn, Nat.mod_eq_of_lt hlt]⟩

theorem scan_counts_accepted_witness :
    ∃ a, imagecb_scan sinPoly startState twoPointFrame = .ok a ∧
      a.n = (Spec.accepted sinPoly startState twoPointFrame).length % 2 ^ 32 ∧
      ((Spec.accepted sinPoly startState twoPointFrame).length < 2 ^ 32 →
        a.n = (Spec.accepted sinPoly startState twoPointFrame).length) :=
  (scan_counts_accepted sinPoly startState twoPointFrame
    (scanDefined_twoPointFrame startState)).2.2.2

/-- Claim C8, as amended.  For a frame whose scan stays inside its arrays and
accepts exactly `k` points, `0 < k < 2^32`, `imagecb` returns with `count = k`
and `z` the least of `1e6` and the accepted depths: the minimum accepted depth
whenever `max_z_` is at most `1e6`.  In a state where `k > 3000` or
`seesObstacle_` is set (the guard of the division), `x` is the sum of the
accepted `x_val` over `k`, `y` the sum of the accepted `y_val` over `k`, and
that point is published as the centroid marker.  In a state where `k ≤ 3000`
and `seesObstacle_` is clear, `x` and `y` are left at the two sums and no
centroid marker is published. -/
theorem imagecb_centroid (sin : ℚ → ℚ) (s : TurtlebotFollower) (f : DepthFrame) (k : ℕ)
    (hdef : ScanDefined s f) (hk : (Spec.accepted sin s f).length = k) (hpos : 0 < k)
    (hlt : k < 2 ^ 32) :
    ∃ r, imagecb sin s f = .ok r ∧
      r.centroid.count = k ∧
      r.centroid.z ≤ 1000000 ∧
      (∀ q ∈ Spec.accepted sin s f, r.centroid.z ≤ q.2.2) ∧
      (r.centroid.z = 1000000 ∨ ∃ q ∈ Spec.accepted sin s f, r.centroid.z = q.2.2) ∧
      (s.max_z_ ≤ 1000000 → ∃ q ∈ Spec.accepted sin s f, r.centroid.z = q.2.2) ∧
      (k > 3000 ∨ s.seesObstacle_ = true →
        r.centroid.x = some (((Spec.accepted sin s f).map fun q => q.1).sum / k) ∧
        r.centroid.y = some (((Spec.accepted sin s f).map fun q => q.2.1).sum / k) ∧
        r.pub.marker = [{ x := r.centroid.x, y := r.centroid.y, z := r.centroid.z }]) ∧
      (¬ (k > 3000 ∨ s.seesObstacle_ = true) →
        r.centroid.x = some (((Spec.accepted sin s f).map fun q => q.1).sum) ∧
        r.centroid.y = some (((Spec.accepted sin s f).map fun q => q.2.1).sum) ∧
        r.pub.marker = []) := by
  obtain ⟨a, ha, hx, hy, hz, hn⟩ := imagecb_scan_result sin hdef
  rw [hk, Nat.mod_eq_of_lt hlt] at hn
  have hk0 : ((k : ℕ) : ℚ) ≠ 0 := by exact_mod_cast (Nat.pos_iff_ne_zero.mp hpos)
  have hzc : (imagecb_control s a).centroid.z = a.z ∧
      (imagecb_control s a).centroid.count = k := by
    unfold imagecb_control
    split_ifs <;> exact ⟨rfl, hn⟩
  obtain ⟨hz1, hz2, hz3⟩ :=
    foldl_min_spec ((Spec.accepted sin s f).map fun q => q.2.2) 1000000
  rw [← hz] at hz1 hz2 hz3
  have hall : ∀ q ∈ Spec.accepted sin s f, a.z ≤ q.2.2 :=
    fun q hq => hz2 q.2.2 (List.mem_map.mpr ⟨q, hq, rfl⟩)
  have hmem : a.z = 1000000 ∨ ∃ q ∈ Spec.accepted sin s f, a.z = q.2.2 := by
    rcases hz3 with h | h
    · exact Or.inl h
    · obtain ⟨q, hq, hq2⟩ := List.mem_map.mp h
      exact Or.inr ⟨q, hq, hq2.symm⟩
  refine ⟨imagecb_control s a, imagecb_of_scan ha, hzc.2, ?_, ?_, ?_, ?_, ?_, ?_⟩
  · rw [hzc.1]; exact hz1
  · rw [hzc.1]; exact hall
  · rw [hzc.1]; exact hmem
  · rw [hzc.1]
    intro hmax
    rcases hmem with h | h
    · obtain ⟨q, hq⟩ := List.exists_mem_of_length_pos (by rw [hk]; exact hpos)
      refine ⟨q, hq, le_antisymm (hall q hq) ?_⟩
      show q.2.2 ≤ a.z
      rw [h]
      exact le_trans (accepted_depth_le hq) hmax
    · exact h
  · intro hguard
    have hg : a.n > 3000 ∨ s.seesObstacle_ = true := by rw [hn]; exact hguard
    have hc : (imagecb_control s a).centroid =
        { x := some (a.x / k), y := some (a.y / k), z := a.z, count := k } := by
      unfold imagecb_control
      rw [if_pos hg]
      simp only [fdiv, hn, hk0, if_false]
      split_ifs <;> rfl
    have hm : (imagecb_control s a).pub.marker =
        [{ x := some (a.x / k), y := some (a.y / k), z := a.z }] := by
      unfold imagecb_control
      rw [if_pos hg]
      simp only [fdiv, hn, hk0, if_false, publishMarker]
      split_ifs <;> rfl
    exact ⟨by rw [hc, hx], by rw [hc, hy], by rw [hm, hc]⟩
  · intro hguard
    have hg : ¬ (a.n > 3000 ∨ s.seesObstacle_ = true) := by rw [hn]; exact hguard
    have hc : (imagecb_control s a).centroid.x = some a.x ∧
        (imagecb_control s a).centroid.y = some a.y ∧
        (imagecb_control s a).pub.marker = [] := by
      unfold imagecb_control
      rw [if_neg hg]
      split_ifs <;> exact ⟨rfl, rfl, rfl⟩
    exact ⟨by rw [hc.1, hx], by rw [hc.2.1, hy], hc.2.2⟩

theorem imagecb_centroid_witness :
    ∃ r, imagecb sinPoly avoidingState twoPointFrame = .ok r ∧
      r.centroid.count = 2 ∧
      r.centroid.z ≤ 1000000 ∧
      (∀ q ∈ Spec.accepted sinPoly avoidingState twoPointFrame, r.centroid.z ≤ q.2.2) ∧
      (r.centroid.z = 1000000 ∨
        ∃ q ∈ Spec.accepted sinPoly avoidingState twoPointFrame, r.centroid.z = q.2.2) ∧
      (avoidingState.max_z_ ≤ 1000000 →
        ∃ q ∈ Spec.accepted sinPoly avoidingState twoPointFrame, r.centroid.z = q.2.2) ∧
      (2 > 3000 ∨ avoidingState.seesObstacle_ = true →
        r.centroid.x =
          some (((Spec.accepted sinPoly avoidingState twoPointFrame).map fun q => q.1).sum /
            (2 : ℕ)) ∧
        r.centroid.y =
          some (((Spec.accepted sinPoly avoidingState twoPointFrame).map fun q => q.2.1).sum /
            (2 : ℕ)) ∧
        r.pub.marker = [{ x := r.centroid.x, y := r.centroid.y, z := r.centroid.z }]) ∧
      (¬ (2 > 3000 ∨ avoidingState.seesObstacle_ = true) →
        r.centroid.x =
          some (((Spec.accepted sinPoly avoidingState twoPointFrame).map fun q => q.1).sum) ∧
        r.centroid.y =
          some (((Spec.accepted sinPoly avoidingState twoPointFrame).map fun q => q.2.1).sum) ∧
        r.pub.marker = []) :=
  imagecb_centroid sinPoly avoidingState twoPointFrame 2
    (scanDefined_twoPointFrame avoidingState)
    (by rw [accepted_twoPointFrame avoidingState rfl rfl rfl rfl rfl]; rfl)
    (by decide) (by norm_num)

/-- Claim C8, as stated, fails twice.  With two accepted points and the
controller not avoiding, `imagecb` leaves `x` at the sum of the two `x_val`, not
at their mean, and publishes no centroid.  With `max_z_` above `1e6` and one
accepted point two million metres away, `z` stays at `1e6`. -/
theorem imagecb_centroid_counterexample :
    (∃ r, imagecb sinPoly startState twoPointFrame = .ok r ∧
      (Spec.accepted sinPoly startState twoPointFrame).length = 2 ∧
      ((Spec.accepted sinPoly startState twoPointFrame).map fun q => q.1).sum / 2 =
        -373163 / 4952198 ∧
      r.centroid.x = some (-373163 / 2476099) ∧
      r.centroid.x ≠
        some (((Spec.accepted sinPoly startState twoPointFrame).map fun q => q.1).sum / 2) ∧
      r.pub.marker = []) ∧
    (∃ r, imagecb sinPoly wideState farPointFrame = .ok r ∧
      (Spec.accepted sinPoly wideState farPointFrame).map (fun q => q.2.2) = [2000000] ∧
      r.centroid.z = 1000000) := by
  constructor
  · obtain ⟨a, ha, hx, -, -, hn⟩ :=
      imagecb_scan_result sinPoly (scanDefined_twoPointFrame startState)
    rw [accepted_twoPointFrame startState rfl rfl rfl rfl rfl] at hx hn ⊢
    have hn2 : a.n = 2 := by simpa using hn
    have hx2 : a.x = -373163 / 2476099 := by rw [hx]; norm_num
    have hng : ¬ (a.n > 3000 ∨ startState.seesObstacle_ = true) := by
      rw [hn2]; simp [startState, onInit]
    have hc : (imagecb_control startState a).centroid.x = some a.x ∧
        (imagecb_control startState a).pub.marker = [] := by
      unfold imagecb_control
      rw [if_neg hng]
      split_ifs <;> exact ⟨rfl, rfl⟩
    refine ⟨imagecb_control startState a, imagecb_of_scan ha, rfl, by norm_num, ?_, ?_, hc.2⟩
    · rw [hc.1, hx2]
    · rw [hc.1, hx2]
      norm_num
  · obtain ⟨a, ha, -, -, hz, hn⟩ :=
      imagecb_scan_result sinPoly (scanDefined_farPointFrame wideState)
    rw [accepted_farPointFrame] at hz hn ⊢
    have hz2 : a.z = 1000000 := by rw [hz]; norm_num
    have hg : a.n > 3000 ∨ wideState.seesObstacle_ = true := Or.inr rfl
    have hc : (imagecb_control wideState a).centroid.z = a.z := by
      unfold imagecb_control
      rw [if_pos hg]
      split_ifs <;> rfl
    exact ⟨imagecb_control wideState a, imagecb_of_scan ha, rfl, by rw [hc, hz2]⟩

/-- Claim C7: the failing input.  While `seesObstacle_` is set, a frame whose
only sample is not finite is scanned to `n = 0`, and `imagecb` still divides
the two sums by `n`: `x` and `y` are not-a-number, and that point is published
as the centroid marker. -/
theorem imagecb_divides_by_zero (sin : ℚ → ℚ) :
    ∃ r, imagecb sin avoidingState invalidFrame = .ok r ∧
      r.centroid = { x := none, y := none, z := 1000000, count := 0 } ∧
      r.pub.marker = [{ x := none, y := none, z := 1000000 }] := by
  refine ⟨_, imagecb_of_scan (imagecb_scan_invalidFrame sin avoidingState), ?_, ?_⟩ <;>
    simp [imagecb_control, avoidingState, startState, onInit, TurtlebotFollower.construct,
      Acc.init, fdiv, TURN_THRES, publishMarker]

/-- On every frame with at least one row and one column whose dimensions fit an
`int`, the loops visit the last column, which lies beyond `sin_pixel_x`. -/
theorem pixels_beyond_sin_pixel_x (sin : ℚ → ℚ) (f : DepthFrame) (hw0 : 0 < f.width)
    (hw : f.width < 2 ^ 31) (hh0 : 0 < f.height) (hh : f.height < 2 ^ 31) :
    (0, f.width - 1) ∈ pixels f ∧ (sin_pixel_x sin f)[f.width - 1]? = none := by
  constructor
  · rw [mem_pixels]
    simp only [toInt32, hw, hh, if_true, Int.toNat_ofNat]
    omega
  · rw [List.getElem?_eq_none_iff]
    simp only [sin_pixel_x, List.length_map, List.length_range, image_width]
    omega

/-- Claim C9: the failing input.  On a frame two pixels wide `sin_pixel_x` has
one entry, the loops visit columns 0 and 1, and the finite depth in column 1
makes `imagecb` read `sin_pixel_x[1]`, past the end of the array. -/
theorem imagecb_reads_past_sin_pixel_x (sin : ℚ → ℚ) :
    image_width rightPixelFrame = 1 ∧
    (sin_pixel_x sin rightPixelFrame).length = 1 ∧
    pixels rightPixelFrame = [(0, 0), (0, 1)] ∧
    imagecb sin startState rightPixelFrame = .error .tableOverrun := by
  refine ⟨rfl, by simp [sin_pixel_x, image_width, rightPixelFrame], ?_, ?_⟩
  · simp [pixels, rightPixelFrame, toInt32, List.range_succ]
  · norm_num [imagecb, imagecb_scan, scanLoop, scanPixel, pixels, toInt32, sin_pixel_x,
      sin_pixel_y, image_width, rightPixelFrame, startState, onInit,
      TurtlebotFollower.construct, List.range_succ, x_radians_per_pixel,
      y_radians_per_pixel, fdiv]

/-- Claim C1: the failing input.  A STOPPED request on the enabled start state
publishes the all-zero command and clears `enabled_`; the next frame, with no
accepted point, publishes the search command although `enabled_` is false, and
after a blob report it publishes the approach command. -/
theorem imagecb_publishes_while_disabled (K : SetFollowState) (sin : ℚ → ℚ) :
    (changeModeSrvCb K startState K.STOPPED).cmd_vel = [{ linear_x := 0, angular_z := 0 }] ∧
    (changeModeSrvCb K startState K.STOPPED).state.enabled_ = false ∧
    (∃ r, imagecb sin (changeModeSrvCb K startState K.STOPPED).state invalidFrame = .ok r ∧
      r.pub.cmd_vel = [{ linear_x := 0, angular_z := 1 / 2 }]) ∧
    (∃ r, imagecb sin (blobsCallBack (changeModeSrvCb K startState K.STOPPED).state 1)
        invalidFrame = .ok r ∧
      r.pub.cmd_vel = [{ linear_x := 1 / 2, angular_z := 0 }]) := by
  have hs : changeModeSrvCb K startState K.STOPPED =
      { state := { startState with enabled_ := false },
        cmd_vel := [{ linear_x := 0, angular_z := 0 }], result := K.OK, ret := true } := by
    simp [changeModeSrvCb, startState, onInit]
  rw [hs]
  refine ⟨rfl, rfl, ⟨_, imagecb_of_scan (imagecb_scan_invalidFrame sin _), ?_⟩,
    ⟨_, imagecb_of_scan (imagecb_scan_invalidFrame sin _), ?_⟩⟩ <;>
    simp [imagecb_control, blobsCallBack, startState, onInit, TurtlebotFollower.construct,
      Acc.init]

/-! ## The controller and the configuration -/

/-- Claim C12, as amended.  For a state with `seesObstacle_` clear, a frame that
is scanned to `n = 0` and processed while enabled publishes exactly the
approach command when `seesBlobs_` is set and exactly the search command when
it is not. -/
theorem imagecb_empty_scene (sin : ℚ → ℚ) (s : TurtlebotFollower) (f : DepthFrame) (a : Acc)
    (hscan : imagecb_scan sin s f = .ok a) (hn : a.n = 0) (_hen : s.enabled_ = true)
    (hav : s.seesObstacle_ = false) :
    ∃ r, imagecb sin s f = .ok r ∧
      (s.seesBlobs_ = true → r.pub.cmd_vel = [{ linear_x := 1 / 2, angular_z := 0 }]) ∧
      (s.seesBlobs_ = false → r.pub.cmd_vel = [{ linear_x := 0, angular_z := 1 / 2 }]) := by
  refine ⟨imagecb_control s a, imagecb_of_scan hscan, ?_, ?_⟩ <;>
    intro hb <;> simp [imagecb_control, hn, hav, hb]

theorem imagecb_empty_scene_witness :
    ∃ r, imagecb sinPoly startState invalidFrame = .ok r ∧
      (startState.seesBlobs_ = true →
        r.pub.cmd_vel = [{ linear_x := 1 / 2, angular_z := 0 }]) ∧
      (startState.seesBlobs_ = false →
        r.pub.cmd_vel = [{ linear_x := 0, angular_z := 1 / 2 }]) :=
  imagecb_empty_scene sinPoly startState invalidFrame Acc.init
    (imagecb_scan_invalidFrame _ _) rfl rfl rfl

/-- Claim C12, as stated, fails while `seesObstacle_` is set: enabled, with no
blob in sight and a frame scanned to `n = 0`, `imagecb` publishes the turn
command, not the search command. -/
theorem imagecb_empty_scene_counterexample :
    avoidingState.enabled_ = true ∧ avoidingState.seesBlobs_ = false ∧
    ∃ r, imagecb sinPoly avoidingState invalidFrame = .ok r ∧ r.centroid.count = 0 ∧
      r.pub.cmd_vel = [{ linear_x := 0, angular_z := 3 / 5 }] ∧
      r.pub.cmd_vel ≠ [{ linear_x := 0, angular_z := 1 / 2 }] := by
  refine ⟨rfl, rfl, _, imagecb_of_scan (imagecb_scan_invalidFrame sinPoly avoidingState),
    ?_, ?_, ?_⟩ <;>
    norm_num [imagecb_control, avoidingState, startState, onInit, TurtlebotFollower.construct,
      Acc.init, TURN_THRES]

/-- Claim C16, as amended.  The constructor defaults satisfy `min_x < max_x`,
`min_y < max_y` and `max_z > 0`, and after any sequence of reconfigurations each
of whose configurations satisfies the three inequalities the stored box
satisfies them too. -/
theorem reconfigures_keeps_box (junk : TurtlebotFollower) (cs : List (FollowerConfig × ℕ))
    (h : ∀ c ∈ cs, c.1.min_x < c.1.max_x ∧ c.1.min_y < c.1.max_y ∧ 0 < c.1.max_z) :
    (reconfigures (TurtlebotFollower.construct junk) cs).min_x_ <
        (reconfigures (TurtlebotFollower.construct junk) cs).max_x_ ∧
      (reconfigures (TurtlebotFollower.construct junk) cs).min_y_ <
        (reconfigures (TurtlebotFollower.construct junk) cs).max_y_ ∧
      0 < (reconfigures (TurtlebotFollower.construct junk) cs).max_z_ := by
  have hgen : ∀ (cs : List (FollowerConfig × ℕ)) (s : TurtlebotFollower),
      (s.min_x_ < s.max_x_ ∧ s.min_y_ < s.max_y_ ∧ 0 < s.max_z_) →
      (∀ c ∈ cs, c.1.min_x < c.1.max_x ∧ c.1.min_y < c.1.max_y ∧ 0 < c.1.max_z) →
      (reconfigures s cs).min_x_ < (reconfigures s cs).max_x_ ∧
        (reconfigures s cs).min_y_ < (reconfigures s cs).max_y_ ∧
        0 < (reconfigures s cs).max_z_ := by
    intro cs
    induction cs with
    | nil => intro s hs _; exact hs
    | cons c cs ih =>
      intro s _ hc
      exact ih (reconfigure s c.1 c.2) (hc c (List.mem_cons_self _ _))
        (fun d hd => hc d (List.mem_cons_of_mem _ hd))
  exact hgen cs _ (by norm_num [TurtlebotFollower.construct]) h

theorem reconfigures_keeps_box_witness :
    (reconfigures (TurtlebotFollower.construct startState) [(properConfig, 0)]).min_x_ <
        (reconfigures (TurtlebotFollower.construct startState) [(properConfig, 0)]).max_x_ ∧
      (reconfigures (TurtlebotFollower.construct startState) [(properConfig, 0)]).min_y_ <
        (reconfigures (TurtlebotFollower.construct startState) [(properConfig, 0)]).max_y_ ∧
      0 < (reconfigures (TurtlebotFollower.construct startState) [(properConfig, 0)]).max_z_ :=
  reconfigures_keeps_box startState [(properConfig, 0)]
    (by simp [properConfig])

/-- Claim C16, as stated, fails: `reconfigure` stores what it is given, so one
reconfiguration with `min_x = 1` and `max_x = 0` leaves a box with
`min_x_ > max_x_`. -/
theorem reconfigures_keeps_box_counterexample :
    ¬ ((reconfigures (TurtlebotFollower.construct startState) [(emptyBoxConfig, 0)]).min_x_ <
        (reconfigures (TurtlebotFollower.construct startState) [(emptyBoxConfig, 0)]).max_x_) := by
  norm_num [reconfigures, reconfigure, emptyBoxConfig]

/-! ## What the scan and the controller read -/

/-- The scan reads the object only through the box and `max_z_`. -/
theorem scanLoop_congr {s1 s2 : TurtlebotFollower} (tx ty : List (Option ℚ)) (f : DepthFrame)
    (hy0 : s1.min_y_ = s2.min_y_) (hy1 : s1.max_y_ = s2.max_y_)
    (hx0 : s1.min_x_ = s2.min_x_) (hx1 : s1.max_x_ = s2.max_x_)
    (hz : s1.max_z_ = s2.max_z_) (ps : List (ℕ × ℕ)) (a : Acc) :
    scanLoop s1 tx ty f ps a = scanLoop s2 tx ty f ps a := by
  have hpix : ∀ (a : Acc) (p : ℕ × ℕ), scanPixel s1 tx ty f a p = scanPixel s2 tx ty f a p := by
    intro a p
    simp only [scanPixel, inBox, hy0, hy1, hx0, hx1, hz]
  induction ps generalizing a with
  | nil => rfl
  | cons p ps ih =>
    simp only [scanLoop, hpix]
    rcases scanPixel s2 tx ty f a p with e | a1
    · rfl
    · exact ih a1

theorem imagecb_scan_congr (sin : ℚ → ℚ) {s1 s2 : TurtlebotFollower} (f : DepthFrame)
    (hy0 : s1.min_y_ = s2.min_y_) (hy1 : s1.max_y_ = s2.max_y_)
    (hx0 : s1.min_x_ = s2.min_x_) (hx1 : s1.max_x_ = s2.max_x_)
    (hz : s1.max_z_ = s2.max_z_) :
    imagecb_scan sin s1 f = imagecb_scan sin s2 f := by
  simp only [imagecb_scan, scanLoop_congr _ _ f hy0 hy1 hx0 hx1 hz]

/-- The controller reads the object only through the box, `max_z_`, `enabled_`,
`count`, `seesBlobs_` and `seesObstacle_`. -/
theorem imagecb_control_congr {s1 s2 : TurtlebotFollower} (a : Acc)
    (hy0 : s1.min_y_ = s2.min_y_) (hy1 : s1.max_y_ = s2.max_y_)
    (hx0 : s1.min_x_ = s2.min_x_) (hx1 : s1.max_x_ = s2.max_x_)
    (hz : s1.max_z_ = s2.max_z_) (hen : s1.enabled_ = s2.enabled_)
    (hc : s1.count = s2.count) (hb : s1.seesBlobs_ = s2.seesBlobs_)
    (ho : s1.seesObstacle_ = s2.seesObstacle_) :
    ((imagecb_control s1 a).pub, (imagecb_control s1 a).centroid,
        (imagecb_control s1 a).state.count, (imagecb_control s1 a).state.seesObstacle_,
        (imagecb_control s1 a).state.seesBlobs_, (imagecb_control s1 a).state.enabled_) =
      ((imagecb_control s2 a).pub, (imagecb_control s2 a).centroid,
        (imagecb_control s2 a).state.count, (imagecb_control s2 a).state.seesObstacle_,
        (imagecb_control s2 a).state.seesBlobs_, (imagecb_control s2 a).state.enabled_) := by
  obtain ⟨y0, y1, x0, x1, z, g, zs, xs, en, c, r, d, b, o⟩ := s1
  obtain ⟨y0', y1', x0', x1', z', g', zs', xs', en', c', r', d', b', o'⟩ := s2
  simp only at hy0 hy1 hx0 hx1 hz hen hc hb ho
  subst hy0 hy1 hx0 hx1 hz hen hc hb ho
  unfold imagecb_control
  simp only [publishBbox]
  split_ifs <;> rfl

/-- Claim C15.  Two configurations that differ only in `goal_z`, `z_scale` and
`x_scale`, installed by `reconfigure` on the same object, make `imagecb` behave
alike on every frame: the same fault, or the same published messages, the same
centroid and the same `count`, `seesObstacle_`, `seesBlobs_` and `enabled_`
afterwards. -/
theorem imagecb_ignores_goal_and_scales (sin : ℚ → ℚ) (s : TurtlebotFollower)
    (f : DepthFrame) (c : FollowerConfig) (goal_z z_scale x_scale : ℚ) (l1 l2 : ℕ) :
    Except.map
        (fun r : FrameResult => (r.pub, r.centroid, r.state.count, r.state.seesObstacle_,
          r.state.seesBlobs_, r.state.enabled_))
        (imagecb sin (reconfigure s c l1) f) =
      Except.map
        (fun r : FrameResult => (r.pub, r.centroid, r.state.count, r.state.seesObstacle_,
          r.state.seesBlobs_, r.state.enabled_))
        (imagecb sin
          (reconfigure s { c with goal_z := goal_z, z_scale := z_scale, x_scale := x_scale } l2)
          f) := by
  have hscan : imagecb_scan sin (reconfigure s c l1) f =
      imagecb_scan sin
        (reconfigure s { c with goal_z := goal_z, z_scale := z_scale, x_scale := x_scale } l2)
        f := imagecb_scan_congr sin f rfl rfl rfl rfl rfl
  unfold imagecb
  rw [← hscan]
  rcases imagecb_scan sin (reconfigure s c l1) f with e | a
  · rfl
  · simp only [Except.map, Except.ok.injEq]
    exact imagecb_control_congr a rfl rfl rfl rfl rfl rfl rfl rfl rfl

/-! ## The projector tables -/

/-- Claim C14, as amended.  For a frame with `image_width = floor(W/2) > 0`:
`sin_pixel_x` has `image_width` entries and entry `u` is the sine of
`(u - image_width/2) * ((60/57)/image_width)`; `sin_pixel_y` has `H` entries and
entry `v` is the sine of `(H/2 - v) * ((45/57)/image_width)`, the value the
specification gives for `sinY[v]`. -/
theorem sin_pixel_tables (sin : ℚ → ℚ) (f : DepthFrame) (hw : 0 < image_width f) :
    image_width f = f.width / 2 ∧
    (sin_pixel_x sin f).length = image_width f ∧
    (sin_pixel_y sin f).length = f.height ∧
    (∀ u, u < image_width f →
      (sin_pixel_x sin f)[u]? =
        some (some (sin (((u : ℚ) - (image_width f : ℚ) / 2) *
          (60 / 57 / (image_width f : ℚ)))))) ∧
    (∀ v, v < f.height →
      (sin_pixel_y sin f)[v]? =
        some (some (sin (((f.height : ℚ) / 2 - (v : ℚ)) * (45 / 57 / (image_width f : ℚ))))) ∧
      (sin_pixel_y sin f)[v]? = some (some (Spec.sinY sin f.width f.height v))) := by
  have hq : ((image_width f : ℕ) : ℚ) ≠ 0 := by exact_mod_cast (Nat.pos_iff_ne_zero.mp hw)
  refine ⟨rfl, by simp [sin_pixel_x], by simp [sin_pixel_y], ?_, ?_⟩
  · intro u hu
    simp [sin_pixel_x, x_radians_per_pixel, fdiv, hq, hu]
  · intro v hv
    have h1 : (sin_pixel_y sin f)[v]? =
        some (some (sin (((f.height : ℚ) / 2 - (v : ℚ)) *
          (45 / 57 / (image_width f : ℚ))))) := by
      simp [sin_pixel_y, y_radians_per_pixel, fdiv, hq, hv]
    exact ⟨h1, by rw [h1]; rfl⟩

theorem sin_pixel_tables_witness :
    image_width twoPointFrame = twoPointFrame.width / 2 ∧
    (sin_pixel_x sinPoly twoPointFrame).length = image_width twoPointFrame ∧
    (sin_pixel_y sinPoly twoPointFrame).length = twoPointFrame.height ∧
    (∀ u, u < image_width twoPointFrame →
      (sin_pixel_x sinPoly twoPointFrame)[u]? =
        some (some (sinPoly (((u : ℚ) - (image_width twoPointFrame : ℚ) / 2) *
          (60 / 57 / (image_width twoPointFrame : ℚ)))))) ∧
    (∀ v, v < twoPointFrame.height →
      (sin_pixel_y sinPoly twoPointFrame)[v]? =
        some (some (sinPoly (((twoPointFrame.height : ℚ) / 2 - (v : ℚ)) *
          (45 / 57 / (image_width twoPointFrame : ℚ))))) ∧
      (sin_pixel_y sinPoly twoPointFrame)[v]? =
        some (some (Spec.sinY sinPoly twoPointFrame.width twoPointFrame.height v))) :=
  sin_pixel_tables sinPoly twoPointFrame (by simp [image_width, twoPointFrame])

/-- Claim C14, as stated, fails for `sinX`: on a frame four pixels wide,
`image_width` is 2 and `sin_pixel_x[0]` is the sine of `(0 - 1) * (10/19)`,
while the specification gives the sine of `(0 - 2) * (10/19)`. -/
theorem sin_pixel_tables_counterexample :
    0 < image_width twoPointFrame ∧
    (sin_pixel_x sinPoly twoPointFrame)[0]? = some (some (sinPoly (-(10 / 19)))) ∧
    Spec.sinX sinPoly twoPointFrame.width 0 = sinPoly (-(20 / 19)) ∧
    (sin_pixel_x sinPoly twoPointFrame)[0]? ≠
      some (some (Spec.sinX sinPoly twoPointFrame.width 0)) := by
  have h1 : (sin_pixel_x sinPoly twoPointFrame)[0]? = some (some (sinPoly (-(10 / 19)))) := by
    norm_num [sin_pixel_x, image_width, twoPointFrame, x_radians_per_pixel, fdiv,
      List.range_succ]
  have h2 : Spec.sinX sinPoly twoPointFrame.width 0 = sinPoly (-(20 / 19)) := by
    norm_num [Spec.sinX, twoPointFrame]
  refine ⟨by simp [image_width, twoPointFrame], h1, h2, ?_⟩
  rw [h1, h2]
  norm_num [sinPoly]

/-! ## Monotonicity in `max_z_` -/

theorem acceptedAt_mono {s : TurtlebotFollower} {z1 : ℚ} (hz : s.max_z_ ≤ z1)
    (tx ty : List (Option ℚ)) (f : DepthFrame) (p : ℕ × ℕ) {q : ℚ × ℚ × ℚ}
    (h : Spec.acceptedAt s tx ty f p = some q) :
    Spec.acceptedAt { s with max_z_ := z1 } tx ty f p = some q := by
  unfold Spec.acceptedAt at h ⊢
  split at h
  · rename_i depth sy sx hd hy hx
    split_ifs at h with hc
    simp only [hd, hy, hx]
    rw [if_pos ⟨le_trans hc.1 hz, hc.2⟩]
    exact h
  · simp at h

theorem length_filterMap_mono {α β : Type} (g1 g2 : α → Option β)
    (h : ∀ x b, g1 x = some b → ∃ c, g2 x = some c) (l : List α) :
    (l.filterMap g1).length ≤ (l.filterMap g2).length := by
  induction l with
  | nil => simp
  | cons x xs ih =>
    rcases h1 : g1 x with _ | b
    · rw [List.filterMap_cons_none h1]
      rcases h2 : g2 x with _ | c
      · rw [List.filterMap_cons_none h2]; exact ih
      · rw [List.filterMap_cons_some h2]
        exact Nat.le_succ_of_le ih
    · obtain ⟨c, h2⟩ := h x b h1
      rw [List.filterMap_cons_some h1, List.filterMap_cons_some h2]
      exact Nat.succ_le_succ ih

theorem scanDefined_mono {s : TurtlebotFollower} {z1 : ℚ} (hz : s.max_z_ ≤ z1)
    {f : DepthFrame} (h : ScanDefined { s with max_z_ := z1 } f) : ScanDefined s f := by
  refine ⟨h.1, fun p hp => ?_⟩
  have h1 := h.2 p hp
  unfold pixelDefined at h1 ⊢
  rcases hd : f.data[p.1 * (f.step / 4) + p.2]? with _ | _ | d <;> simp [hd] at h1 ⊢
  rcases h1 with h1 | h1
  · exact Or.inl (lt_of_le_of_lt hz h1)
  · exact Or.inr h1

/-- Claim C11, as amended.  With the frame and the box fixed and `max_z_`
raised from `max_z_` to `z1`, the number of accepted points does not decrease;
and for a frame whose scan stays inside its arrays under the larger bound, both
scans return, each with its count `n` equal to the number of accepted points
modulo `2^32`, so that the count of the first is at most the count of the
second whenever fewer than `2^32` points are accepted under the larger bound. -/
theorem scan_count_mono (sin : ℚ → ℚ) (s : TurtlebotFollower) (f : DepthFrame) (z1 : ℚ)
    (hz : s.max_z_ ≤ z1) (hdef : ScanDefined { s with max_z_ := z1 } f) :
    (Spec.accepted sin s f).length ≤ (Spec.accepted sin { s with max_z_ := z1 } f).length ∧
    ∃ a a1, imagecb_scan sin s f = .ok a ∧
      imagecb_scan sin { s with max_z_ := z1 } f = .ok a1 ∧
      a.n = (Spec.accepted sin s f).length % 2 ^ 32 ∧
      a1.n = (Spec.accepted sin { s with max_z_ := z1 } f).length % 2 ^ 32 ∧
      ((Spec.accepted sin { s with max_z_ := z1 } f).length < 2 ^ 32 → a.n ≤ a1.n) := by
  have hmono : (Spec.accepted sin s f).length ≤
      (Spec.accepted sin { s with max_z_ := z1 } f).length := by
    unfold Spec.accepted
    exact length_filterMap_mono _ _
      (fun p q hq => ⟨q, acceptedAt_mono hz _ _ f p hq⟩) (pixels f)
  obtain ⟨a, ha, -, -, -, hn⟩ := imagecb_scan_result sin (scanDefined_mono hz hdef)
  obtain ⟨a1, ha1, -, -, -, hn1⟩ := imagecb_scan_result sin hdef
  refine ⟨hmono, a, a1, ha, ha1, hn, hn1, fun hle1 => ?_⟩
  have hle : (Spec.accepted sin s f).length < 2 ^ 32 := lt_of_le_of_lt hmono hle1
  rw [hn, hn1, Nat.mod_eq_of_lt hle, Nat.mod_eq_of_lt hle1]
  exact hmono

theorem accepted_risingFrame :
    (Spec.accepted sinPoly startState risingFrame).length = 1 ∧
    (Spec.accepted sinPoly { startState with max_z_ := 1 } risingFrame).length = 2 := by
  unfold Spec.accepted
  rw [pixels_four_by_two rfl rfl]
  constructor <;>
    norm_num [Spec.acceptedAt, risingFrame, sin_pixel_x, sin_pixel_y, image_width,
      x_radians_per_pixel, y_radians_per_pixel, fdiv, sinPoly, List.range_succ, startState,
      onInit, TurtlebotFollower.construct, -Prod.mk_zero_zero, -Prod.mk_one_one,
      List.filterMap_cons]

theorem scanDefined_risingFrame (s : TurtlebotFollower) : ScanDefined s risingFrame := by
  refine ⟨by simp [risingFrame], ?_⟩
  rw [pixels_four_by_two rfl rfl]
  simp [pixelDefined, risingFrame, image_width]

theorem scan_count_mono_witness :
    ((Spec.accepted sinPoly startState risingFrame).length ≤
        (Spec.accepted sinPoly { startState with max_z_ := 1 } risingFrame).length ∧
      ∃ a a1, imagecb_scan sinPoly startState risingFrame = .ok a ∧
        imagecb_scan sinPoly { startState with max_z_ := 1 } risingFrame = .ok a1 ∧
        a.n = (Spec.accepted sinPoly startState risingFrame).length % 2 ^ 32 ∧
        a1.n =
          (Spec.accepted sinPoly { startState with max_z_ := 1 } risingFrame).length % 2 ^ 32 ∧
        ((Spec.accepted sinPoly { startState with max_z_ := 1 } risingFrame).length < 2 ^ 32 →
          a.n ≤ a1.n)) ∧
    (Spec.accepted sinPoly startState risingFrame).length = 1 ∧
    (Spec.accepted sinPoly { startState with max_z_ := 1 } risingFrame).length = 2 :=
  ⟨scan_count_mono sinPoly startState risingFrame 1
      (by norm_num [startState, onInit, TurtlebotFollower.construct])
      (scanDefined_risingFrame _),
    accepted_risingFrame.1, accepted_risingFrame.2⟩

/-! ## The same frame twice -/

/-- The controller keeps `count` between 0 and 180 and keeps `seesObstacle_` set
exactly when `count` is positive. -/
theorem imagecb_control_inv (s : TurtlebotFollower) (a : Acc)
    (h : 0 ≤ s.count ∧ s.count ≤ 180 ∧ (s.seesObstacle_ = true ↔ 0 < s.count)) :
    0 ≤ (imagecb_control s a).state.count ∧ (imagecb_control s a).state.count ≤ 180 ∧
      ((imagecb_control s a).state.seesObstacle_ = true ↔
        0 < (imagecb_control s a).state.count) := by
  obtain ⟨h0, h1, h2⟩ := h
  unfold imagecb_control
  split_ifs with c1 c2 c3 c4 c5 c6
  · simp only [TURN_THRES] at c4
    exact ⟨by simp only; omega, by simp only; omega, by simp only [true_iff]; omega⟩
  · simp only [TURN_THRES] at c5
    exact ⟨by simp only; omega, by simp only; omega, by simp only [true_iff]; omega⟩
  · simp
  · exact ⟨h0, h1, h2⟩
  · exact ⟨h0, h1, h2⟩
  · refine ⟨le_refl _, by norm_num, ?_⟩
    have hno : s.seesObstacle_ = false := by
      cases hs : s.seesObstacle_
      · rfl
      · exact absurd (Or.inr hs) c1
    simp [hno]
  · exact ⟨h0, h1, h2⟩

theorem handle_inv (sin : ℚ → ℚ) (K : SetFollowState) (s s1 : TurtlebotFollower) (e : Event)
    (h : 0 ≤ s.count ∧ s.count ≤ 180 ∧ (s.seesObstacle_ = true ↔ 0 < s.count))
    (hstep : handle sin K s e = .ok s1) :
    0 ≤ s1.count ∧ s1.count ≤ 180 ∧ (s1.seesObstacle_ = true ↔ 0 < s1.count) := by
  cases e with
  | depth f =>
    simp only [handle, imagecb] at hstep
    rcases hsc : imagecb_scan sin s f with x | a
    · simp [hsc] at hstep
    · simp only [hsc, Except.ok.injEq] at hstep
      subst hstep
      exact imagecb_control_inv s a h
  | blobs b =>
    simp only [handle, Except.ok.injEq] at hstep
    subst hstep
    unfold blobsCallBack
    split_ifs <;> exact h
  | reconfig c l =>
    simp only [handle, Except.ok.injEq] at hstep
    subst hstep
    exact h
  | changeMode q =>
    simp only [handle, Except.ok.injEq] at hstep
    subst hstep
    unfold changeModeSrvCb
    split_ifs <;> exact h

theorem runEvents_inv (sin : ℚ → ℚ) (K : SetFollowState) (es : List Event)
    (s s1 : TurtlebotFollower)
    (h : 0 ≤ s.count ∧ s.count ≤ 180 ∧ (s.seesObstacle_ = true ↔ 0 < s.count))
    (hrun : runEvents sin K s es = .ok s1) :
    0 ≤ s1.count ∧ s1.count ≤ 180 ∧ (s1.seesObstacle_ = true ↔ 0 < s1.count) := by
  induction es generalizing s with
  | nil =>
    simp only [runEvents, Except.ok.injEq] at hrun
    subst hrun
    exact h
  | cons e es ih =>
    simp only [runEvents] at hrun
    rcases hst : handle sin K s e with x | s2
    · simp [hst] at hrun
    · simp only [hst] at hrun
      exact ih s2 (handle_inv sin K s s2 e h hst) hrun

/-- Claim C17.  In every state reached from a state with `count = 0` and
`seesObstacle_ = false` by a sequence of depth frames, blob reports,
reconfigurations and enable/disable requests, `seesObstacle_` is set exactly
when `count` is positive. -/
theorem runEvents_avoiding_iff_counting (sin : ℚ → ℚ) (K : SetFollowState)
    (s s1 : TurtlebotFollower) (es : List Event) (hc : s.count = 0)
    (ho : s.seesObstacle_ = false) (hrun : runEvents sin K s es = .ok s1) :
    s1.seesObstacle_ = true ↔ s1.count > 0 :=
  (runEvents_inv sin K es s s1 (by simp [hc, ho]) hrun).2.2

/-- Claim C18.  In every state reached from a state with `count = 0` and
`seesObstacle_ = false` by a sequence of depth frames, blob reports,
reconfigurations and enable/disable requests, `count` lies between 0 and
`2 * TURN_THRES = 180`. -/
theorem runEvents_count_bounded (sin : ℚ → ℚ) (K : SetFollowState)
    (s s1 : TurtlebotFollower) (es : List Event) (hc : s.count = 0)
    (ho : s.seesObstacle_ = false) (hrun : runEvents sin K s es = .ok s1) :
    0 ≤ s1.count ∧ s1.count ≤ 2 * TURN_THRES ∧ 2 * TURN_THRES = 180 := by
  have h := runEvents_inv sin K es s s1 (by simp [hc, ho]) hrun
  exact ⟨h.1, by simp only [TURN_THRES]; exact h.2.1, by simp [TURN_THRES]⟩

/-! ## The length of an avoidance cycle -/

theorem map_fst_range {α : Type} (n : ℕ) (c : α) (g : ℕ → ℤ) :
    ((List.range n).map (fun (i : ℕ) => (c, g i))).map Prod.fst = List.replicate n c := by
  induction n with
  | zero => rfl
  | succ n ih =>
    rw [List.range_succ, List.map_append, List.map_append, ih, List.replicate_succ']
    rfl

/-- The frame that ends a cycle: avoiding, enabled, no blob, `count` at 180. -/
theorem frameStep_cycle_end (s : TurtlebotFollower) (a : Acc) (hen : s.enabled_ = true)
    (hav : s.seesObstacle_ = true) (hc : s.count = 180) :
    (frameStep s (0, a)).pub.cmd_vel = [{ linear_x := 0, angular_z := 0 }] ∧
      (frameStep s (0, a)).state.count = 0 ∧
      (frameStep s (0, a)).state.seesObstacle_ = false := by
  simp [frameStep, blobsCallBack, imagecb_control, hen, hav, hc, TURN_THRES]

/-- A cycle from the advance phase on: `180 - c` advance commands and the stop. -/
theorem runTrace_cycle_tail (as : List Acc) (s : TurtlebotFollower) (c : ℕ)
    (hen : s.enabled_ = true) (hav : s.seesObstacle_ = true) (hc : s.count = (c : ℤ))
    (hlo : 90 ≤ c) (hhi : c ≤ 180) (hlen : as.length = 181 - c) :
    (runTrace s (as.map fun a => (0, a))).map Prod.fst =
        List.replicate (180 - c) [({ linear_x := 3 / 10, angular_z := 0 } : Twist)] ++
          [[({ linear_x := 0, angular_z := 0 } : Twist)]] ∧
      (runState s (as.map fun a => (0, a))).count = 0 ∧
      (runState s (as.map fun a => (0, a))).seesObstacle_ = false := by
  have hsplit : as = as.take (180 - c) ++ as.drop (180 - c) :=
    (List.take_append_drop _ as).symm
  have hl1 : (as.take (180 - c)).length = 180 - c := by
    rw [List.length_take, hlen]; omega
  have hl2 : (as.drop (180 - c)).length = 1 := by
    rw [List.length_drop, hlen]; omega
  generalize as.take (180 - c) = l1 at hsplit hl1
  generalize as.drop (180 - c) = l2 at hsplit hl2
  subst hsplit
  obtain ⟨x, rfl⟩ : ∃ x, l2 = [x] := List.length_eq_one.mp hl2
  obtain ⟨ht, hcnt, he, ho⟩ := runTrace_advancing l1 s hen hav (by rw [hc]; exact_mod_cast hlo)
    (by rw [hc, hl1]; omega)
  have hc180 : (runState s (l1.map fun a => (0, a))).count = 180 := by
    rw [hcnt, hc, hl1]; omega
  obtain ⟨e1, e2, e3⟩ := frameStep_cycle_end _ x he ho hc180
  rw [List.map_append, runTrace_append, runState_append, List.map_append, ht, map_fst_range,
    hl1]
  simp only [List.map_cons, List.map_nil, runTrace, runState, e1, e2, e3, and_self, and_true]

/-- Claim C19.  From a state with `seesObstacle_` set, `enabled_` set and
`count = c`, `1 ≤ c ≤ 180`, any `181 - c` frames without a blob in sight,
whatever their accepted points, publish in order `90 - c` turn commands (none
when `c ≥ 90`), `180 - max c 90` advance commands and one all-zero command, and
leave `seesObstacle_ = false` and `count = 0`. -/
theorem runTrace_cycle (as : List Acc) (s : TurtlebotFollower) (c : ℕ)
    (hen : s.enabled_ = true) (hav : s.seesObstacle_ = true) (hc : s.count = (c : ℤ))
    (hlo : 1 ≤ c) (hhi : c ≤ 180) (hlen : as.length = 181 - c) :
    (runTrace s (as.map fun a => (0, a))).map Prod.fst =
        List.replicate (90 - c) [({ linear_x := 0, angular_z := 3 / 5 } : Twist)] ++
          List.replicate (180 - max c 90) [({ linear_x := 3 / 10, angular_z := 0 } : Twist)] ++
          [[({ linear_x := 0, angular_z := 0 } : Twist)]] ∧
      (runState s (as.map fun a => (0, a))).seesObstacle_ = false ∧
      (runState s (as.map fun a => (0, a))).count = 0 := by
  by_cases h90 : 90 ≤ c
  · obtain ⟨h1, h2, h3⟩ := runTrace_cycle_tail as s c hen hav hc h90 hhi hlen
    have e1 : 90 - c = 0 := by omega
    have e2 : max c 90 = c := max_eq_left h90
    rw [h1, e1, e2]
    exact ⟨by simp, h3, h2⟩
  · have hsplit : as = as.take (90 - c) ++ as.drop (90 - c) :=
      (List.take_append_drop _ as).symm
    have hl1 : (as.take (90 - c)).length = 90 - c := by
      rw [List.length_take, hlen]; omega
    have hl2 : (as.drop (90 - c)).length = 181 - 90 := by
      rw [List.length_drop, hlen]; omega
    generalize as.take (90 - c) = l1 at hsplit hl1
    generalize as.drop (90 - c) = l2 at hsplit hl2
    subst hsplit
    obtain ⟨ht, hcnt, he, ho⟩ := runTrace_turning l1 s hen hav (by rw [hc, hl1]; omega)
    have hc90 : (runState s (l1.map fun a => (0, a))).count = ((90 : ℕ) : ℤ) := by
      rw [hcnt, hc, hl1]; omega
    obtain ⟨h1, h2, h3⟩ := runTrace_cycle_tail l2 _ 90 he ho hc90 (le_refl _) (by norm_num) hl2
    have e2 : max c 90 = 90 := max_eq_right (by omega)
    rw [List.map_append, runTrace_append, runState_append, List.map_append, ht, map_fst_range,
      h1, hl1, e2]
    exact ⟨by simp, h3, h2⟩

theorem runTrace_cycle_witness :
    (runTrace avoidingState ((List.replicate 180 Acc.init).map fun a => (0, a))).map Prod.fst =
        List.replicate (90 - 1) [({ linear_x := 0, angular_z := 3 / 5 } : Twist)] ++
          List.replicate (180 - max 1 90)
            [({ linear_x := 3 / 10, angular_z := 0 } : Twist)] ++
          [[({ linear_x := 0, angular_z := 0 } : Twist)]] ∧
      (runState avoidingState
        ((List.replicate 180 Acc.init).map fun a => (0, a))).seesObstacle_ = false ∧
      (runState avoidingState ((List.replicate 180 Acc.init).map fun a => (0, a))).count = 0 :=
  runTrace_cycle (List.replicate 180 Acc.init) avoidingState 1 rfl rfl rfl (le_refl _)
    (by norm_num) (List.length_replicate _ _)

/-! ## Frames while disabled -/

/-- While disabled, a callback other than a request leaves `count`,
`seesObstacle_` and `enabled_` as they are, provided `count` is zero whenever
`seesObstacle_` is clear. -/
theorem handle_disabled (sin : ℚ → ℚ) (K : SetFollowState) (s s1 : TurtlebotFollower)
    (e : Event) (hreq : e.isRequest = false) (hen : s.enabled_ = false)
    (hinv : s.seesObstacle_ = false → s.count = 0) (hstep : handle sin K s e = .ok s1) :
    s1.count = s.count ∧ s1.seesObstacle_ = s.seesObstacle_ ∧ s1.enabled_ = false := by
  cases e with
  | depth f =>
    simp only [handle, imagecb] at hstep
    rcases hsc : imagecb_scan sin s f with x | a
    · simp [hsc] at hstep
    · simp only [hsc, Except.ok.injEq] at hstep
      subst hstep
      unfold imagecb_control
      split_ifs with c1 c2 c3 c4 c5 c6
      · exact absurd c2 (by simp [hen])
      · exact absurd c2 (by simp [hen])
      · exact absurd c2 (by simp [hen])
      · exact absurd c2 (by simp [hen])
      · exact ⟨rfl, rfl, hen⟩
      · have hno : s.seesObstacle_ = false := by
          cases hs : s.seesObstacle_
          · rfl
          · exact absurd (Or.inr hs) c1
        exact ⟨(hinv hno).symm, rfl, hen⟩
      · exact ⟨rfl, rfl, hen⟩
  | blobs b =>
    simp only [handle, Except.ok.injEq] at hstep
    subst hstep
    unfold blobsCallBack
    split_ifs <;> exact ⟨rfl, rfl, hen⟩
  | reconfig c l =>
    simp only [handle, Except.ok.injEq] at hstep
    subst hstep
    exact ⟨rfl, rfl, hen⟩
  | changeMode q => simp [Event.isRequest] at hreq

theorem runEvents_disabled (sin : ℚ → ℚ) (K : SetFollowState) (es : List Event)
    (s s1 : TurtlebotFollower) (hreq : ∀ e ∈ es, e.isRequest = false)
    (hen : s.enabled_ = false) (hinv : s.seesObstacle_ = false → s.count = 0)
    (hrun : runEvents sin K s es = .ok s1) :
    s1.count = s.count ∧ s1.seesObstacle_ = s.seesObstacle_ ∧ s1.enabled_ = false := by
  induction es generalizing s with
  | nil =>
    simp only [runEvents, Except.ok.injEq] at hrun
    subst hrun
    exact ⟨rfl, rfl, hen⟩
  | cons e es ih =>
    simp only [runEvents] at hrun
    rcases hst : handle sin K s e with x | s2
    · simp [hst] at hrun
    · simp only [hst] at hrun
      obtain ⟨h1, h2, h3⟩ :=
        handle_disabled sin K s s2 e (hreq e (List.mem_cons_self _ _)) hen hinv hst
      obtain ⟨k1, k2, k3⟩ := ih s2 (fun d hd => hreq d (List.mem_cons_of_mem _ hd)) h3
        (by rw [h1, h2]; exact hinv) hrun
      exact ⟨by rw [k1, h1], by rw [k2, h2], k3⟩

/-- Claim C20.  Let `s` be reached from a state with `count = 0` and
`seesObstacle_ = false`, and let `enabled_` be false in `s`.  Then any further
sequence of depth frames, blob reports and reconfigurations leaves `count` and
`seesObstacle_` as they are in `s` and `enabled_` false, and a FOLLOW request
after it sets `enabled_` with `count` and `seesObstacle_` still those of `s`. -/
theorem runEvents_disabled_keeps_cycle (sin : ℚ → ℚ) (K : SetFollowState)
    (s0 s s1 : TurtlebotFollower) (es0 es : List Event) (hc : s0.count = 0)
    (ho : s0.seesObstacle_ = false) (hreach : runEvents sin K s0 es0 = .ok s)
    (hen : s.enabled_ = false) (hreq : ∀ e ∈ es, e.isRequest = false)
    (hrun : runEvents sin K s es = .ok s1) :
    s1.count = s.count ∧ s1.seesObstacle_ = s.seesObstacle_ ∧ s1.enabled_ = false ∧
      (changeModeSrvCb K s1 K.FOLLOW).state.enabled_ = true ∧
      (changeModeSrvCb K s1 K.FOLLOW).state.count = s.count ∧
      (changeModeSrvCb K s1 K.FOLLOW).state.seesObstacle_ = s.seesObstacle_ := by
  have hinv := runEvents_inv sin K es0 s0 s (by simp [hc, ho]) hreach
  have hz : s.seesObstacle_ = false → s.count = 0 := by
    intro hs
    have : ¬ 0 < s.count := fun hpos => by
      have := hinv.2.2.mpr hpos
      simp [hs] at this
    omega
  obtain ⟨h1, h2, h3⟩ := runEvents_disabled sin K es s s1 hreq hen hz hrun
  refine ⟨h1, h2, h3, ?_, ?_, ?_⟩ <;> simp [changeModeSrvCb, h3, h1, h2]

/-! ## Counting the accepted points of large frames -/

theorem sinClamp_bounds (a : ℚ) : -1 ≤ sinClamp a ∧ sinClamp a ≤ 1 := by
  unfold sinClamp
  exact ⟨le_max_left _ _, max_le (by norm_num) (min_le_left _ _)⟩

/-- In a row whose first `m` columns are accepted and whose other columns are
not, `m` points are accepted. -/
theorem length_filterMap_row {β : Type} (g : ℕ × ℕ → Option β) (v : ℕ) :
    ∀ (n m : ℕ), m ≤ n → (∀ u, u < m → ∃ b, g (v, u) = some b) →
      (∀ u, m ≤ u → u < n → g (v, u) = none) →
      (((List.range n).map fun u => (v, u)).filterMap g).length = m := by
  intro n
  induction n with
  | zero =>
    intro m hm _ _
    have : m = 0 := by omega
    subst this
    rfl
  | succ n ih =>
    intro m hm hsome hnone
    rw [List.range_succ, List.map_append, List.filterMap_append, List.length_append]
    by_cases hmn : m ≤ n
    · rw [ih m hmn hsome (fun u h1 h2 => hnone u h1 (by omega))]
      have hlast : g (v, n) = none := hnone n hmn (by omega)
      simp [List.filterMap_cons, hlast]
    · have hm1 : m = n + 1 := by omega
      subst hm1
      rw [ih n (le_refl _) (fun u h => hsome u (by omega)) (fun u h1 h2 => by omega)]
      obtain ⟨b, hb⟩ := hsome n (by omega)
      simp [List.filterMap_cons, hb]

/-- In a frame of `H` rows, each with `m` accepted points, `H * m` points are
accepted. -/
theorem length_filterMap_rows {β : Type} (g : ℕ × ℕ → Option β) (W m : ℕ) :
    ∀ (H : ℕ), (∀ v, v < H → (((List.range W).map fun u => (v, u)).filterMap g).length = m) →
      ((((List.range H).map fun v => (List.range W).map fun u => (v, u)).flatten).filterMap
        g).length = H * m := by
  intro H
  induction H with
  | zero => intro _; simp
  | succ H ih =>
    intro h
    rw [List.range_succ, List.map_append, List.flatten_append, List.filterMap_append,
      List.length_append, ih (fun v hv => h v (by omega))]
    simp only [List.map_cons, List.map_nil, List.flatten_cons, List.flatten_nil,
      List.append_nil]
    rw [h H (by omega)]
    ring

theorem sin_pixel_x_entry (sin : ℚ → ℚ) (f : DepthFrame) {u : ℕ} (hu : u < image_width f) :
    (sin_pixel_x sin f)[u]? =
      some (some (sin (((u : ℚ) - (image_width f : ℚ) / 2) *
        (60 / 57 / (image_width f : ℚ))))) := by
  have hq : ((image_width f : ℕ) : ℚ) ≠ 0 := by
    have : image_width f ≠ 0 := by omega
    exact_mod_cast this
  simp [sin_pixel_x, x_radians_per_pixel, fdiv, hq, hu]

theorem sin_pixel_y_entry (sin : ℚ → ℚ) (f : DepthFrame) {v : ℕ} (hv : v < f.height)
    (hw : 0 < image_width f) :
    (sin_pixel_y sin f)[v]? =
      some (some (sin (((f.height : ℚ) / 2 - (v : ℚ)) * (45 / 57 / (image_width f : ℚ))))) := by
  have hq : ((image_width f : ℕ) : ℚ) ≠ 0 := by
    have : image_width f ≠ 0 := by omega
    exact_mod_cast this
  simp [sin_pixel_y, y_radians_per_pixel, fdiv, hq, hv]

/-- With a sine between -1 and 1 and a box of three metres to each side, a
pixel of the left half with a depth between 0 and 2 m inside `max_z_` is
accepted. -/
theorem acceptedAt_open (sin : ℚ → ℚ) (hb : ∀ a, -1 ≤ sin a ∧ sin a ≤ 1)
    (s : TurtlebotFollower) (hy0 : s.min_y_ = -3) (hy1 : s.max_y_ = 3) (hx0 : s.min_x_ = -3)
    (hx1 : s.max_x_ = 3) (f : DepthFrame) (v u : ℕ) (d : ℚ) (hv : v < f.height)
    (hu : u < image_width f) (hd : f.data[v * (f.step / 4) + u]? = some (some d))
    (hd0 : 0 ≤ d) (hd2 : d ≤ 2) (hz : d ≤ s.max_z_) :
    ∃ b, Spec.acceptedAt s (sin_pixel_x sin f) (sin_pixel_y sin f) f (v, u) = some b := by
  unfold Spec.acceptedAt
  simp only [hd, sin_pixel_x_entry sin f hu, sin_pixel_y_entry sin f hv (by omega)]
  obtain ⟨y0, y1⟩ := hb (((f.height : ℚ) / 2 - (v : ℚ)) * (45 / 57 / (image_width f : ℚ)))
  obtain ⟨x0, x1⟩ := hb (((u : ℚ) - (image_width f : ℚ) / 2) * (60 / 57 / (image_width f : ℚ)))
  rw [if_pos]
  · exact ⟨_, rfl⟩
  · rw [hy0, hy1, hx0, hx1]
    refine ⟨hz, ?_, ?_, ?_, ?_⟩ <;> nlinarith

theorem acceptedAt_invalid (s : TurtlebotFollower) (tx ty : List (Option ℚ)) (f : DepthFrame)
    (p : ℕ × ℕ) (hd : f.data[p.1 * (f.step / 4) + p.2]? = some none) :
    Spec.acceptedAt s tx ty f p = none := by
  unfold Spec.acceptedAt
  split
  · rename_i h1 _ _
    rw [hd] at h1
    simp at h1
  · rfl

theorem acceptedAt_far (s : TurtlebotFollower) (tx ty : List (Option ℚ)) (f : DepthFrame)
    (p : ℕ × ℕ) (d : ℚ) (hd : f.data[p.1 * (f.step / 4) + p.2]? = some (some d))
    (hz : s.max_z_ < d) : Spec.acceptedAt s tx ty f p = none := by
  unfold Spec.acceptedAt
  split
  · rename_i depth _ _ h1 _ _
    rw [hd] at h1
    simp only [Option.some.injEq] at h1
    subst h1
    rw [if_neg]
    intro h
    exact absurd h.1 (not_le.mpr hz)
  · rfl

/-- The accepted points of a frame whose rows each have exactly their first `m`
columns accepted. -/
theorem accepted_length_rows (sin : ℚ → ℚ) (s : TurtlebotFollower) (f : DepthFrame) (m : ℕ)
    (hh : f.height < 2 ^ 31) (hw : f.width < 2 ^ 31) (hm : m ≤ f.width)
    (hsome : ∀ v u, v < f.height → u < m →
      ∃ b, Spec.acceptedAt s (sin_pixel_x sin f) (sin_pixel_y sin f) f (v, u) = some b)
    (hnone : ∀ v u, v < f.height → m ≤ u → u < f.width →
      Spec.acceptedAt s (sin_pixel_x sin f) (sin_pixel_y sin f) f (v, u) = none) :
    (Spec.accepted sin s f).length = f.height * m := by
  unfold Spec.accepted pixels
  simp only [toInt32, hh, hw, if_true, Int.toNat_ofNat]
  apply length_filterMap_rows
  intro v hv
  exact length_filterMap_row _ v f.width m hm (fun u hu => hsome v u hv hu)
    (fun u h1 h2 => hnone v u hv h1 h2)

theorem denseFrame_data {v u : ℕ} (hv : v < 80) (hu : u < 80) :
    denseFrame.data[v * (denseFrame.step / 4) + u]? =
      some (if u < 40 then some 1 else none) := by
  have h1 : v * (320 / 4) + u < 6400 := by omega
  have h2 : (v * (320 / 4) + u) % 80 = u := by omega
  simp only [denseFrame, List.getElem?_map, List.getElem?_range h1, Option.map_some', h2]

theorem wrapFrame_data (v : ℕ) {u : ℕ} (hu : u < 131072) :
    wrapFrame.data[v * (wrapFrame.step / 4) + u]? =
      some (if u = 0 then some 1 else if u < 65536 then some 2 else none) := by
  have h1 : v * (0 / 4) + u = u := by simp
  simp only [wrapFrame, h1, List.getElem?_map, List.getElem?_range hu, Option.map_some']

theorem pixelDefined_of_data {s : TurtlebotFollower} {f : DepthFrame} {p : ℕ × ℕ}
    {r : Option ℚ} (hd : f.data[p.1 * (f.step / 4) + p.2]? = some r)
    (h : ∀ d, r = some d → d ≤ s.max_z_ → p.2 < image_width f) :
    pixelDefined s f p = true := by
  unfold pixelDefined
  rw [hd]
  rcases r with _ | d
  · rfl
  · by_cases hz : d > s.max_z_
    · simp [hz]
    · simp [h d rfl (not_lt.mp hz)]

theorem denseFrame_width : denseFrame.width = 80 := rfl

theorem denseFrame_height : denseFrame.height = 80 := rfl

theorem image_width_denseFrame : image_width denseFrame = 40 := by
  simp only [image_width, denseFrame_width]

theorem wrapFrame_width : wrapFrame.width = 131072 := rfl

theorem wrapFrame_height : wrapFrame.height = 65536 := rfl

theorem image_width_wrapFrame : image_width wrapFrame = 65536 := by
  simp only [image_width, wrapFrame_width]

theorem scanDefined_denseFrame (s : TurtlebotFollower) : ScanDefined s denseFrame := by
  refine ⟨by rw [denseFrame_height]; norm_num, fun p hp => ?_⟩
  obtain ⟨hv, hu⟩ := mem_pixels.mp hp
  rw [denseFrame_height] at hv
  rw [denseFrame_width] at hu
  have hv1 : p.1 < 80 := by simpa [toInt32] using hv
  have hu1 : p.2 < 80 := by simpa [toInt32] using hu
  apply pixelDefined_of_data (denseFrame_data hv1 hu1)
  intro d hd _
  rw [image_width_denseFrame]
  by_cases h : p.2 < 40
  · exact h
  · simp [h] at hd

theorem scanDefined_wrapFrame (s : TurtlebotFollower) : ScanDefined s wrapFrame := by
  refine ⟨by rw [wrapFrame_height]; norm_num, fun p hp => ?_⟩
  obtain ⟨-, hu⟩ := mem_pixels.mp hp
  rw [wrapFrame_width] at hu
  have hu1 : p.2 < 131072 := by simpa [toInt32] using hu
  apply pixelDefined_of_data (wrapFrame_data p.1 hu1)
  intro d hd _
  rw [image_width_wrapFrame]
  by_cases h0 : p.2 = 0
  · omega
  · by_cases h : p.2 < 65536
    · exact h
    · simp [h0, h] at hd

/-- In the open box with `max_z_` at least 1 m, and for any sine between -1
and 1, all 3200 pixels of the left half of `denseFrame` are accepted. -/
theorem accepted_denseFrame (sin : ℚ → ℚ) (hb : ∀ a, -1 ≤ sin a ∧ sin a ≤ 1) (z : ℚ)
    (hz : 1 ≤ z) : (Spec.accepted sin (openState z) denseFrame).length = 3200 := by
  have h := accepted_length_rows sin (openState z) denseFrame 40
    (by rw [denseFrame_height]; norm_num) (by rw [denseFrame_width]; norm_num)
    (by rw [denseFrame_width]; norm_num)
    (fun v u hv hu => by
      have hv1 : v < 80 := hv
      have hd := denseFrame_data hv1 (show u < 80 by omega)
      rw [if_pos hu] at hd
      exact acceptedAt_open sin hb (openState z) rfl rfl rfl rfl denseFrame
        v u 1 hv (by rw [image_width_denseFrame]; exact hu) hd (by norm_num) (by norm_num) hz)
    (fun v u hv h1 h2 => by
      have hv1 : v < 80 := hv
      have hu1 : u < 80 := h2
      have hd := denseFrame_data hv1 hu1
      rw [if_neg (by omega)] at hd
      exact acceptedAt_invalid _ _ _ _ (v, u) hd)
  rw [h]
  rfl

/-- The scan of `denseFrame` in the open box, with any sine between -1 and 1,
returns with `n = 3200`. -/
theorem imagecb_scan_denseFrame (sin : ℚ → ℚ) (hb : ∀ a, -1 ≤ sin a ∧ sin a ≤ 1) (z : ℚ)
    (hz : 1 ≤ z) (s : TurtlebotFollower)
    (hy0 : s.min_y_ = -3) (hy1 : s.max_y_ = 3) (hx0 : s.min_x_ = -3) (hx1 : s.max_x_ = 3)
    (hzs : s.max_z_ = z) :
    ∃ a, imagecb_scan sin s denseFrame = .ok a ∧ a.n = 3200 := by
  obtain ⟨a, ha, -, -, -, hn⟩ := imagecb_scan_result sin (scanDefined_denseFrame (openState z))
  rw [accepted_denseFrame sin hb z hz] at hn
  refine ⟨a, ?_, by simpa using hn⟩
  rw [← ha]
  exact imagecb_scan_congr sin denseFrame hy0 hy1 hx0 hx1 hzs

/-- In the open box with `max_z_ = 2`, and for any sine between -1 and 1,
every pixel of the left half of `wrapFrame` is accepted: `2^32` points. -/
theorem accepted_wrapFrame_far (sin : ℚ → ℚ) (hb : ∀ a, -1 ≤ sin a ∧ sin a ≤ 1) :
    (Spec.accepted sin (openState 2) wrapFrame).length = 4294967296 := by
  have h := accepted_length_rows sin (openState 2) wrapFrame 65536
    (by rw [wrapFrame_height]; norm_num) (by rw [wrapFrame_width]; norm_num)
    (by rw [wrapFrame_width]; norm_num)
    (fun v u hv hu => by
      have hd := wrapFrame_data v (show u < 131072 by omega)
      by_cases h0 : u = 0
      · rw [if_pos h0] at hd
        exact acceptedAt_open sin hb (openState 2) rfl rfl rfl rfl wrapFrame
          v u 1 hv (by rw [image_width_wrapFrame]; exact hu) hd (by norm_num) (by norm_num)
          (by norm_num [openState, reconfigure, openConfig])
      · rw [if_neg h0, if_pos hu] at hd
        exact acceptedAt_open sin hb (openState 2) rfl rfl rfl rfl wrapFrame
          v u 2 hv (by rw [image_width_wrapFrame]; exact hu) hd (by norm_num) (by norm_num)
          (by norm_num [openState, reconfigure, openConfig]))
    (fun v u _ h1 h2 => by
      rw [wrapFrame_width] at h2
      have hd := wrapFrame_data v h2
      rw [if_neg (by omega), if_neg (by omega)] at hd
      exact acceptedAt_invalid _ _ _ _ (v, u) hd)
  rw [h, wrapFrame_height]

/-- In the open box with `max_z_ = 1`, and for any sine between -1 and 1, only
column 0 of `wrapFrame` is accepted: 65536 points. -/
theorem accepted_wrapFrame_near (sin : ℚ → ℚ) (hb : ∀ a, -1 ≤ sin a ∧ sin a ≤ 1) :
    (Spec.accepted sin (openState 1) wrapFrame).length = 65536 := by
  have h := accepted_length_rows sin (openState 1) wrapFrame 1
    (by rw [wrapFrame_height]; norm_num) (by rw [wrapFrame_width]; norm_num)
    (by rw [wrapFrame_width]; norm_num)
    (fun v u hv hu => by
      have h0 : u = 0 := by omega
      have hd := wrapFrame_data v (show u < 131072 by omega)
      rw [if_pos h0] at hd
      exact acceptedAt_open sin hb (openState 1) rfl rfl rfl rfl wrapFrame
        v u 1 hv (by rw [image_width_wrapFrame]; omega) hd (by norm_num) (by norm_num)
        (by norm_num [openState, reconfigure, openConfig]))
    (fun v u _ h1 h2 => by
      rw [wrapFrame_width] at h2
      have hd := wrapFrame_data v h2
      rw [if_neg (by omega)] at hd
      by_cases hu : u < 65536
      · rw [if_pos hu] at hd
        exact acceptedAt_far _ _ _ _ (v, u) 2 hd (by norm_num [openState, reconfigure, openConfig])
      · rw [if_neg hu] at hd
        exact acceptedAt_invalid _ _ _ _ (v, u) hd)
  rw [h, wrapFrame_height]

/-- The scans of `wrapFrame`, with any sine between -1 and 1: with `max_z_ = 1`
the counter ends at 65536; with `max_z_ = 2` it is incremented `2^32` times and
ends at 0. -/
theorem imagecb_scan_wrapFrame (sin : ℚ → ℚ) (hb : ∀ a, -1 ≤ sin a ∧ sin a ≤ 1) :
    (∃ a, imagecb_scan sin (openState 1) wrapFrame = .ok a ∧ a.n = 65536) ∧
    (∃ a, imagecb_scan sin (openState 2) wrapFrame = .ok a ∧ a.n = 0) := by
  constructor
  · obtain ⟨a, ha, -, -, -, hn⟩ :=
      imagecb_scan_result sin (scanDefined_wrapFrame (openState 1))
    rw [accepted_wrapFrame_near sin hb] at hn
    exact ⟨a, ha, by simpa using hn⟩
  · obtain ⟨a, ha, -, -, -, hn⟩ :=
      imagecb_scan_result sin (scanDefined_wrapFrame (openState 2))
    rw [accepted_wrapFrame_far sin hb] at hn
    exact ⟨a, ha, by simpa using hn⟩

/-! ## Frames on which the count is not the number of accepted points -/

/-- Claim C10, as stated, fails twice.  On a frame with a finite depth inside
`max_z_` at every pixel, the pixel in column 2 is scanned and has no entry in
`sin_pixel_x`: the scan runs off the table and yields no `n`.  On `wrapFrame`
with `max_z_ = 2`, `2^32` points are accepted, as they are with any sine between
-1 and 1, and the 32-bit counter `n` ends at 0. -/
theorem scan_counts_accepted_counterexample :
    ((0, 2) ∈ pixels fullFrame ∧
      fullFrame.data[0 * (fullFrame.step / 4) + 2]? = some (some (3 / 10)) ∧
      (sin_pixel_x sinPoly fullFrame)[2]? = none ∧
      imagecb_scan sinPoly startState fullFrame = .error .tableOverrun) ∧
    (∃ a, imagecb_scan sinClamp (openState 2) wrapFrame = .ok a ∧
      (Spec.accepted sinClamp (openState 2) wrapFrame).length = 4294967296 ∧
      a.n = 0 ∧ a.n ≠ (Spec.accepted sinClamp (openState 2) wrapFrame).length) := by
  constructor
  · refine ⟨?_, ?_, ?_, ?_⟩
    · rw [pixels_four_by_two rfl rfl]; simp
    · simp [fullFrame]
    · simp [sin_pixel_x, image_width, fullFrame]
    · norm_num [imagecb_scan, scanLoop, scanPixel, pixels, toInt32, sin_pixel_x, sin_pixel_y,
        image_width, fullFrame, startState, onInit, TurtlebotFollower.construct,
        List.range_succ, x_radians_per_pixel, y_radians_per_pixel, fdiv, sinPoly, inBox,
        Acc.init]
  · obtain ⟨a, ha, hn⟩ := (imagecb_scan_wrapFrame sinClamp sinClamp_bounds).2
    refine ⟨a, ha, accepted_wrapFrame_far sinClamp sinClamp_bounds, hn, ?_⟩
    rw [hn, accepted_wrapFrame_far sinClamp sinClamp_bounds]
    norm_num

/-- Claim C11, as stated, fails twice.  On `reachFrame` the scan with
`max_z_ = 0.8` counts two points, and the scan with `max_z_ = 1` reaches the
0.9 m pixel in column 2 and runs off `sin_pixel_x`: no count comes back.  On
`wrapFrame` the scan with `max_z_ = 1` counts 65536 points and the scan with
`max_z_ = 2` wraps its 32-bit counter to 0. -/
theorem scan_count_mono_counterexample :
    (startState.max_z_ ≤ 1 ∧
      (∃ a, imagecb_scan sinPoly startState reachFrame = .ok a ∧ a.n = 2) ∧
      imagecb_scan sinPoly { startState with max_z_ := 1 } reachFrame =
        .error .tableOverrun) ∧
    ((openState 1).max_z_ ≤ (openState 2).max_z_ ∧
      { openState 1 with max_z_ := 2 } = openState 2 ∧
      (∃ a, imagecb_scan sinClamp (openState 1) wrapFrame = .ok a ∧ a.n = 65536) ∧
      (∃ a, imagecb_scan sinClamp (openState 2) wrapFrame = .ok a ∧ a.n = 0)) := by
  refine ⟨⟨?_, ?_, ?_⟩, ?_, rfl, (imagecb_scan_wrapFrame sinClamp sinClamp_bounds).1,
    (imagecb_scan_wrapFrame sinClamp sinClamp_bounds).2⟩
  · norm_num [startState, onInit, TurtlebotFollower.construct]
  · refine ⟨{ x := -373163 / 2476099, y := 146261367 / 633881344, z := 3 / 10, n := 2 },
      ?_, rfl⟩
    norm_num [imagecb_scan, scanLoop, scanPixel, pixels, toInt32, sin_pixel_x, sin_pixel_y,
      image_width, reachFrame, startState, onInit, TurtlebotFollower.construct,
      List.range_succ, x_radians_per_pixel, y_radians_per_pixel, fdiv, sinPoly, inBox,
      Acc.init]
  · norm_num [imagecb_scan, scanLoop, scanPixel, pixels, toInt32, sin_pixel_x, sin_pixel_y,
      image_width, reachFrame, startState, onInit, TurtlebotFollower.construct,
      List.range_succ, x_radians_per_pixel, y_radians_per_pixel, fdiv, sinPoly, inBox,
      Acc.init]
  · norm_num [openState, reconfigure, openConfig]

/-! ## A run that starts an avoidance cycle -/

theorem runEvents_cons_ok {sin : ℚ → ℚ} {K : SetFollowState} {s s1 : TurtlebotFollower}
    {e : Event} (es : List Event) (h : handle sin K s e = .ok s1) :
    runEvents sin K s (e :: es) = runEvents sin K s1 es := by
  simp [runEvents, h]

/-- A frame with 3200 accepted points, processed in the open box while enabled,
with no blob in sight and `count` below 90, sets `seesObstacle_` and increments
`count`. -/
theorem handle_denseFrame_turn (K : SetFollowState) (s : TurtlebotFollower)
    (hy0 : s.min_y_ = -3) (hy1 : s.max_y_ = 3) (hx0 : s.min_x_ = -3) (hx1 : s.max_x_ = 3)
    (hz : s.max_z_ = 2) (hen : s.enabled_ = true) (hb : s.seesBlobs_ = false)
    (hc : s.count < 90) :
    handle sinClamp K s (.depth denseFrame) =
      .ok { s with seesObstacle_ := true, count := s.count + 1 } := by
  obtain ⟨a, ha, hn⟩ :=
    imagecb_scan_denseFrame sinClamp sinClamp_bounds 2 (by norm_num) s hy0 hy1 hx0 hx1 hz
  simp [handle, imagecb, ha, imagecb_control, hn, hen, hb, hc, TURN_THRES]

/-- While disabled, a frame whose scan returns with the obstacle-or-near
condition true leaves the object as it is. -/
theorem handle_depth_disabled (sin : ℚ → ℚ) (K : SetFollowState) (s : TurtlebotFollower)
    (f : DepthFrame) (a : Acc) (ha : imagecb_scan sin s f = .ok a)
    (hen : s.enabled_ = false) (ho : s.seesObstacle_ = true) :
    handle sin K s (.depth f) = .ok s := by
  simp [handle, imagecb, ha, imagecb_control, hen, ho]

theorem runEvents_cycleRun :
    runEvents sinClamp msgConsts startState cycleRun = .ok cycleRunEnd := by
  have e1 : handle sinClamp msgConsts startState (.reconfig (openConfig 2) 0) =
      .ok (openState 2) := rfl
  have e2 : handle sinClamp msgConsts (openState 2) (.blobs 0) = .ok (openState 2) := rfl
  unfold cycleRun
  rw [runEvents_cons_ok _ e1, runEvents_cons_ok _ e2,
    runEvents_cons_ok _
      (handle_denseFrame_turn msgConsts (openState 2) rfl rfl rfl rfl rfl rfl rfl
        (by norm_num [openState, reconfigure, startState, onInit])),
    runEvents_cons_ok _
      (handle_denseFrame_turn msgConsts _ rfl rfl rfl rfl rfl rfl rfl
        (by norm_num [openState, reconfigure, startState, onInit]))]
  simp [runEvents, cycleRunEnd, openState, reconfigure, startState, onInit]

theorem runEvents_append (sin : ℚ → ℚ) (K : SetFollowState) (es1 es2 : List Event)
    (s s1 : TurtlebotFollower) (h : runEvents sin K s es1 = .ok s1) :
    runEvents sin K s (es1 ++ es2) = runEvents sin K s1 es2 := by
  induction es1 generalizing s with
  | nil =>
    simp only [runEvents, Except.ok.injEq] at h
    subst h
    rfl
  | cons e es ih =>
    simp only [runEvents, List.cons_append] at h ⊢
    rcases hst : handle sin K s e with x | s2
    · simp [hst] at h
    · simp only [hst] at h ⊢
      exact ih s2 h

theorem runEvents_stoppedRun :
    runEvents sinClamp msgConsts startState stoppedRun = .ok stoppedRunEnd := by
  unfold stoppedRun
  rw [runEvents_append _ _ _ _ _ _ runEvents_cycleRun]
  simp [runEvents, handle, changeModeSrvCb, msgConsts, stoppedRunEnd, cycleRunEnd, openState,
    reconfigure, startState, onInit]

theorem runEvents_idleRun :
    runEvents sinClamp msgConsts stoppedRunEnd idleRun = .ok idleRunEnd := by
  obtain ⟨a, ha, -⟩ := imagecb_scan_denseFrame sinClamp sinClamp_bounds 2 (by norm_num)
    stoppedRunEnd rfl rfl rfl rfl rfl
  have e2 : handle sinClamp msgConsts stoppedRunEnd (.blobs 1) =
      .ok (blobsCallBack stoppedRunEnd 1) := rfl
  have e4 : handle sinClamp msgConsts (blobsCallBack stoppedRunEnd 1)
      (.reconfig properConfig 0) =
      .ok (reconfigure (blobsCallBack stoppedRunEnd 1) properConfig 0) := rfl
  unfold idleRun
  rw [runEvents_cons_ok _ (handle_depth_disabled sinClamp msgConsts stoppedRunEnd denseFrame a
      ha rfl rfl),
    runEvents_cons_ok _ e2,
    runEvents_cons_ok _ (handle_depth_disabled sinClamp msgConsts _ invalidFrame Acc.init
      (imagecb_scan_invalidFrame _ _) rfl rfl),
    runEvents_cons_ok _ e4,
    runEvents_cons_ok _ (handle_depth_disabled sinClamp msgConsts _ emptyFrame Acc.init
      (imagecb_scan_emptyFrame _ _) rfl rfl)]
  simp [runEvents, idleRunEnd, blobsCallBack, reconfigure]

/-! ## The invariants on a run that starts an avoidance cycle -/

theorem runEvents_avoiding_iff_counting_witness :
    (cycleRunEnd.seesObstacle_ = true ↔ cycleRunEnd.count > 0) ∧
      cycleRunEnd.seesObstacle_ = true ∧ cycleRunEnd.count = 2 :=
  ⟨runEvents_avoiding_iff_counting sinClamp msgConsts startState cycleRunEnd cycleRun rfl rfl
    runEvents_cycleRun, rfl, rfl⟩

theorem runEvents_count_bounded_witness :
    (0 ≤ cycleRunEnd.count ∧ cycleRunEnd.count ≤ 2 * TURN_THRES ∧ 2 * TURN_THRES = 180) ∧
      cycleRunEnd.count = 2 :=
  ⟨runEvents_count_bounded sinClamp msgConsts startState cycleRunEnd cycleRun rfl rfl
    runEvents_cycleRun, rfl⟩

theorem runEvents_disabled_keeps_cycle_witness :
    (idleRunEnd.count = stoppedRunEnd.count ∧
      idleRunEnd.seesObstacle_ = stoppedRunEnd.seesObstacle_ ∧
      idleRunEnd.enabled_ = false ∧
      (changeModeSrvCb msgConsts idleRunEnd msgConsts.FOLLOW).state.enabled_ = true ∧
      (changeModeSrvCb msgConsts idleRunEnd msgConsts.FOLLOW).state.count =
        stoppedRunEnd.count ∧
      (changeModeSrvCb msgConsts idleRunEnd msgConsts.FOLLOW).state.seesObstacle_ =
        stoppedRunEnd.seesObstacle_) ∧
    stoppedRunEnd.count = 2 ∧ stoppedRunEnd.seesObstacle_ = true :=
  ⟨runEvents_disabled_keeps_cycle sinClamp msgConsts startState stoppedRunEnd idleRunEnd
    stoppedRun idleRun rfl rfl runEvents_stoppedRun rfl
    (by simp [idleRun, Event.isRequest]) runEvents_idleRun, rfl, rfl⟩

/-! ## The frames on which the scan returns -/

theorem scanPixel_reads {s : TurtlebotFollower} {tx ty : List (Option ℚ)} {f : DepthFrame}
    {a a1 : Acc} {p : ℕ × ℕ} (h : scanPixel s tx ty f a p = .ok a1) :
    ∃ r, f.data[p.1 * (f.step / 4) + p.2]? = some r ∧
      ∀ d, r = some d → d ≤ s.max_z_ → p.2 < tx.length := by
  unfold scanPixel at h
  rcases hd : f.data[p.1 * (f.step / 4) + p.2]? with _ | _ | depth
  · simp [hd] at h
  · exact ⟨none, rfl, fun d hd1 => by simp at hd1⟩
  · refine ⟨some depth, rfl, fun d hd1 hz => ?_⟩
    simp only [Option.some.injEq] at hd1
    subst hd1
    simp only [hd, if_neg (not_lt.mpr hz)] at h
    rcases hy : ty[p.1]? with _ | sy
    · simp [hy] at h
    · rcases hx : tx[p.2]? with _ | sx
      · simp [hy, hx] at h
      · exact (List.getElem?_eq_some_iff.mp hx).1

theorem scanLoop_reads {s : TurtlebotFollower} {tx ty : List (Option ℚ)} {f : DepthFrame}
    (ps : List (ℕ × ℕ)) (a a1 : Acc) (h : scanLoop s tx ty f ps a = .ok a1) :
    ∀ p ∈ ps, ∃ r, f.data[p.1 * (f.step / 4) + p.2]? = some r ∧
      ∀ d, r = some d → d ≤ s.max_z_ → p.2 < tx.length := by
  induction ps generalizing a with
  | nil => intro p hp; simp at hp
  | cons q qs ih =>
    simp only [scanLoop] at h
    rcases hq : scanPixel s tx ty f a q with e | a2
    · simp [hq] at h
    · simp only [hq] at h
      intro p hp
      rcases List.mem_cons.mp hp with rfl | hp
      · exact scanPixel_reads hq
      · exact ih a2 h p hp

/-- The scan returns exactly on the frames on which it stays inside its
arrays. -/
theorem imagecb_scan_ok_iff (sin : ℚ → ℚ) (s : TurtlebotFollower) (f : DepthFrame) :
    (∃ a, imagecb_scan sin s f = .ok a) ↔ ScanDefined s f := by
  constructor
  · rintro ⟨a, ha⟩
    unfold imagecb_scan at ha
    by_cases hh : 2 ^ 31 ≤ f.height
    · rw [if_pos hh] at ha
      simp at ha
    · rw [if_neg hh] at ha
      refine ⟨not_le.mp hh, fun p hp => ?_⟩
      obtain ⟨r, hr, hin⟩ := scanLoop_reads _ _ _ ha p hp
      exact pixelDefined_of_data hr
        (fun d hd hz => by simpa [sin_pixel_x] using hin d hd hz)
  · exact imagecb_scan_defined sin

end Follower
